import Mathlib

/-!
Verification of the pool analytics core of the aerotropy server.

Shallow embedding conventions, applied uniformly:

* JavaScript numbers are modelled as rationals (`ℚ`).  The one function whose
  behaviour genuinely depends on the real square root
  (`estimateImpermanentLoss`) is modelled over `ℝ` with `Real.sqrt`.
* A JSON string field that the source only ever reads through `parseFloat`
  (resp. `parseInt`) is modelled as `Option ℚ` (resp. `Option Int`): `none`
  stands for an unparseable string (`parseFloat` returning `NaN`), `some q`
  for a string parsing to the number `q`.  Every `isNaN(parseFloat(s))` test
  in the source becomes an `isSome` test here.
* Division by zero is `0` in `ℚ`/`ℝ` while the source would produce
  `Infinity`/`NaN`.  The theorems below never rely on the value of a
  division by zero: whenever a dividing branch could degenerate, the theorem
  either carries a hypothesis ruling the degenerate case out or performs a
  case analysis that covers both boolean outcomes of the branch.
* `Array.prototype.sort` with a numeric comparator is modelled by an
  insertion sort on the same key; all the properties proved here only use
  the facts that sorting preserves length and membership.
-/

namespace Aerotropy

/-- Minimum of a non-empty list of rationals, `Math.min(...xs)` style
(`0` for the empty list, which the call sites never hit). -/
def listMin : List ℚ → ℚ
  | [] => 0
  | x :: xs => xs.foldl min x

/-- Maximum of a non-empty list of rationals, `Math.max(...xs)` style. -/
def listMax : List ℚ → ℚ
  | [] => 0
  | x :: xs => xs.foldl max x

theorem foldl_min_le_init (l : List ℚ) (a : ℚ) : l.foldl min a ≤ a := by
  induction l generalizing a with
  | nil => exact le_refl a
  | cons b bs ih => exact le_trans (ih (min a b)) (min_le_left a b)

theorem foldl_min_le_mem {l : List ℚ} {x : ℚ} (hx : x ∈ l) (a : ℚ) :
    l.foldl min a ≤ x := by
  induction l generalizing a with
  | nil => cases hx
  | cons b bs ih =>
    rcases List.mem_cons.mp hx with h | h
    · subst h
      exact le_trans (foldl_min_le_init bs (min a x)) (min_le_right a x)
    · exact ih h (min a b)

theorem le_foldl_max_init (l : List ℚ) (a : ℚ) : a ≤ l.foldl max a := by
  induction l generalizing a with
  | nil => exact le_refl a
  | cons b bs ih => exact le_trans (le_max_left a b) (ih (max a b))

theorem le_foldl_max_mem {l : List ℚ} {x : ℚ} (hx : x ∈ l) (a : ℚ) :
    x ≤ l.foldl max a := by
  induction l generalizing a with
  | nil => cases hx
  | cons b bs ih =>
    rcases List.mem_cons.mp hx with h | h
    · subst h
      exact le_trans (le_max_right a x) (le_foldl_max_init bs (max a x))
    · exact ih h (max a b)

theorem listMin_le {l : List ℚ} {x : ℚ} (hx : x ∈ l) : listMin l ≤ x := by
  cases l with
  | nil => cases hx
  | cons a as =>
    rcases List.mem_cons.mp hx with h | h
    · subst h
      exact foldl_min_le_init as x
    · exact foldl_min_le_mem h a

theorem le_listMax {l : List ℚ} {x : ℚ} (hx : x ∈ l) : x ≤ listMax l := by
  cases l with
  | nil => cases hx
  | cons a as =>
    rcases List.mem_cons.mp hx with h | h
    · subst h
      exact le_foldl_max_init as x
    · exact le_foldl_max_mem h a

/-- One insertion step of the descending sort used to model
`xs.sort((a, b) => key(b) - key(a))`. -/
def insertDescBy {α : Type} (key : α → ℚ) (x : α) : List α → List α
  | [] => [x]
  | y :: ys => if key y < key x then x :: y :: ys else y :: insertDescBy key x ys

/-- Descending insertion sort by a rational key; stands in for
`Array.prototype.sort` with the comparator `(a, b) => key(b) - key(a)`. -/
def sortDescBy {α : Type} (key : α → ℚ) : List α → List α
  | [] => []
  | x :: xs => insertDescBy key x (sortDescBy key xs)

theorem length_insertDescBy {α : Type} (key : α → ℚ) (x : α) (l : List α) :
    (insertDescBy key x l).length = l.length + 1 := by
  induction l with
  | nil => rfl
  | cons y ys ih =>
    by_cases h : key y < key x <;> simp [insertDescBy, h, ih]

theorem length_sortDescBy {α : Type} (key : α → ℚ) (l : List α) :
    (sortDescBy key l).length = l.length := by
  induction l with
  | nil => rfl
  | cons x xs ih => simp [sortDescBy, length_insertDescBy, ih]

theorem mem_insertDescBy {α : Type} {key : α → ℚ} {x y : α} {l : List α} :
    y ∈ insertDescBy key x l ↔ y = x ∨ y ∈ l := by
  induction l with
  | nil => simp [insertDescBy]
  | cons z zs ih =>
    by_cases h : key z < key x
    · simp [insertDescBy, h]
    · simp [insertDescBy, h, ih]
      tauto

theorem mem_sortDescBy {α : Type} {key : α → ℚ} {y : α} {l : List α} :
    y ∈ sortDescBy key l ↔ y ∈ l := by
  induction l with
  | nil => simp [sortDescBy]
  | cons x xs ih => simp [sortDescBy, mem_insertDescBy, ih]

/-- A token of a pool, as returned by the subgraph
(`src/uniswap/uniswap.service.ts`, interface `Token`). -/
structure Token where
  id : String
  symbol : String
  name : String
deriving DecidableEq, Repr

/-- One day of pool activity (`interface PoolDayData`).  The three USD fields
are strings in the source, read only through `parseFloat`; they are modelled
as the parse result (`none` = `NaN`). -/
structure PoolDayData where
  date : Int
  feesUSD : Option ℚ
  volumeUSD : Option ℚ
  tvlUSD : Option ℚ
deriving DecidableEq, Repr

/-- A raw pool from the subgraph (`interface Pool`, plus the optional
`createdAtTimestamp` of `PoolWithAPR`).  `totalValueLockedUSD` is a string
read through `parseFloat`; `createdAtTimestamp` a string read through
`parseInt` and tested for truthiness, modelled as its parse result. -/
structure Pool where
  id : String
  token0 : Token
  token1 : Token
  feeTier : Option Int
  totalValueLockedUSD : Option ℚ
  poolDayData : List PoolDayData
  createdAtTimestamp : Option Int
deriving DecidableEq, Repr

/-- `x` parses to a strictly positive number (`parseFloat(x) > 0`, which is
false for `NaN`). -/
def tvlPos (x : Option ℚ) : Bool :=
  match x with
  | some t => decide (0 < t)
  | none => false

/-- The valid-day filter of `getUniswapPoolsWithAPR`
(`uniswap.service.ts:152-157`): `feesUSD` and `tvlUSD` both parse to numbers
and `tvlUSD > 0`.  Note that the source does not require `feesUSD >= 0`
here (that check exists only in the latest-APR computation). -/
def validDay (d : PoolDayData) : Bool :=
  d.feesUSD.isSome && d.tvlUSD.isSome && tvlPos d.tvlUSD

/-- Modelled from the spec's words, for comparison with `validDay`: a
snapshot is valid iff `feesUSD` and `tvlUSD` parse to non-negative numbers
and `tvlUSD > 0`. -/
def specValidDay (d : PoolDayData) : Bool :=
  (match d.feesUSD with | some f => decide (0 ≤ f) | none => false) &&
  (match d.tvlUSD with | some t => decide (0 ≤ t) | none => false) &&
  tvlPos d.tvlUSD

/-- Per-day APR `(feesUSD / tvlUSD) * 365 * 100` (`uniswap.service.ts:159-162`);
only ever applied to valid days, where both parses succeed. -/
def dayAPR (d : PoolDayData) : ℚ :=
  d.feesUSD.getD 0 / d.tvlUSD.getD 0 * 365 * 100

/-- Ordinary least-squares regression slope (`regressionSlope`,
`uniswap.service.ts:112-124`). -/
def regressionSlope (xs ys : List ℚ) : Option ℚ :=
  if xs.length ≠ ys.length ∨ xs.length < 2 then none
  else
    let n : ℚ := xs.length
    let xMean := xs.sum / n
    let yMean := ys.sum / n
    let num := ((xs.zip ys).map (fun p => (p.1 - xMean) * (p.2 - yMean))).sum
    let den := (xs.map (fun x => (x - xMean) ^ 2)).sum
    if den = 0 then none else some (num / den)

/-- The derived metrics of one pool.  `aprVariance` holds the variance of the
per-day APR series; the source stores its square root (`Math.sqrt`), an
irrational quantity represented here by its square.  The Sharpe ratio and
the display-only fields are functions of these and are not re-derived. -/
structure PoolMetrics where
  pool : Pool
  apr : Option ℚ
  averageApr7d : Option ℚ
  averageVolume7d : Option ℚ
  aprVariance : Option ℚ
  tvlTrend : Option ℚ
  volumeTrend : Option ℚ
  tvlSlope : Option ℚ
  volumeSlope : Option ℚ
deriving DecidableEq, Repr

/-- The per-pool metric computation of `getUniswapPoolsWithAPR`
(`uniswap.service.ts:126-228`), minus the I/O wrapper: latest APR from the
newest snapshot against the pool's current TVL, and window metrics over the
valid-day subsequence.  A valid day's `volumeUSD` may itself fail to parse;
the source then propagates `NaN` into the volume-average and volume-slope
figures, modelled here as `0` — no claim below concerns those two fields. -/
def computeMetrics (p : Pool) : PoolMetrics :=
  if 0 < p.poolDayData.length ∧ tvlPos p.totalValueLockedUSD then
    let currentTVL := p.totalValueLockedUSD.getD 0
    let apr : Option ℚ :=
      match p.poolDayData.head? with
      | some d0 =>
        match d0.feesUSD with
        | some f => if 0 ≤ f then some (f / currentTVL * 365 * 100) else none
        | none => none
      | none => none
    let validDays := p.poolDayData.filter validDay
    if validDays.length > 0 then
      let aprs := validDays.map dayAPR
      let averageApr7d := aprs.sum / (aprs.length : ℚ)
      let variance :=
        ((aprs.map (fun v => (v - averageApr7d) ^ 2)).sum) / (aprs.length : ℚ)
      let volumes := validDays.map (fun d => d.volumeUSD.getD 0)
      let averageVolume7d := volumes.sum / (volumes.length : ℚ)
      if validDays.length > 1 then
        let tvlStart := (validDays.getLast?.map (fun d => d.tvlUSD.getD 0)).getD 0
        let tvlEnd := (validDays.head?.map (fun d => d.tvlUSD.getD 0)).getD 0
        let tvlTrend : Option ℚ :=
          if 0 < tvlStart then some ((tvlEnd - tvlStart) / tvlStart * 100) else none
        let volStart := (validDays.getLast?.map (fun d => d.volumeUSD.getD 0)).getD 0
        let volEnd := (validDays.head?.map (fun d => d.volumeUSD.getD 0)).getD 0
        let volumeTrend : Option ℚ :=
          if 0 < volStart then some ((volEnd - volStart) / volStart * 100) else none
        let xs := (List.range validDays.length).map (fun i => (i : ℚ))
        let tvls := validDays.map (fun d => d.tvlUSD.getD 0)
        { pool := p, apr := apr, averageApr7d := some averageApr7d,
          averageVolume7d := some averageVolume7d, aprVariance := some variance,
          tvlTrend := tvlTrend, volumeTrend := volumeTrend,
          tvlSlope := regressionSlope xs tvls,
          volumeSlope := regressionSlope xs volumes }
      else
        { pool := p, apr := apr, averageApr7d := some averageApr7d,
          averageVolume7d := some averageVolume7d, aprVariance := some variance,
          tvlTrend := none, volumeTrend := none,
          tvlSlope := none, volumeSlope := none }
    else
      { pool := p, apr := apr, averageApr7d := none, averageVolume7d := none,
        aprVariance := none, tvlTrend := none, volumeTrend := none,
        tvlSlope := none, volumeSlope := none }
  else
    { pool := p, apr := none, averageApr7d := none, averageVolume7d := none,
      aprVariance := none, tvlTrend := none, volumeTrend := none,
      tvlSlope := none, volumeSlope := none }

/-- The static stable-token address set
(`token-correlation.utils.ts`, `STABLE_TOKENS`). -/
def STABLE_TOKENS : List String :=
  [ "0xa0b86991c6218b36c1d19d4a2e9eb0ce3606eb48",
    "0x2791bca1f2de4661ed88a30c99a7a9449aa84174",
    "0x7f5c764cbc14f9669b88837ca1490cca17c31607",
    "0xaf88d065e77c8cc2239327c5edb3a432268e5831",
    "0x833589fcd6edb6e08f4c7c32d4f71b54bda02913",
    "0xdac17f958d2ee523a2206206994597c13d831ec7",
    "0xc2132d05d31c914a87c6611c10748aeb04b58e8f",
    "0x94b008aa00579c1307b0ef2c499ad98a8ce58e58",
    "0xfd086bc7cd5c481dcc9c85ebe478a1c0b69fcbb9",
    "0x6b175474e89094c44da98b954eedeac495271d0f",
    "0x8f3cf7ad23cd3cadbd9735aff958023239c6a063",
    "0xda10009cbd5d07dd0cecc66161fc93d7c9000da1",
    "0x50c5725949a6f0c72e6c4a641f24049a917db0cb",
    "0xc02aaa39b223fe8d0a0e5c4f27ead9083c756cc2",
    "0x7ceb23fd6bc0add59e62ac25578270cff1b9f619",
    "0x4200000000000000000000000000000000000006",
    "0x82af49447d8a07e3bd95bd0d56f35241523fbab1" ]

/-- The static major-token address set (`MAJOR_TOKENS`): the stable set plus
WBTC, LINK and UNI addresses. -/
def MAJOR_TOKENS : List String :=
  STABLE_TOKENS ++
  [ "0x2260fac5e5542a773aa44fbcfedf7c193bc2c599",
    "0x1bfd67037b42cf73acf2047067bd4f2c47d9bfd6",
    "0x68f180fcce6836688e9084f035309e29bf0a2095",
    "0x2f2a2543b76a4166549f7aab2e75bef0aefc5b0f",
    "0x1a35ee4640b0a3b87705b0a4b45d227ba60ca2ad",
    "0x514910771af9ca656af840dff83e8264ecf986ca",
    "0xb0897686c545045afc77cf20ec7a532e3120e0f1",
    "0x350a791bfc2c21f9ed5d10980dad2e2638ffa7f6",
    "0xf97f4df75117a78c1a5a0dbb814af92458539fb4",
    "0x1f9840a85d5af5bf1d1762f925bdaddc4201f984",
    "0xb33eaad8d922b1083446dc23f610c2567fb5180f",
    "0xfa7f8980b0f1e64a2062791cc3b0871572f1f7f0" ]

/-- A pool as consumed by the scoring, sizing and rebalancing stages
(`PoolWithAPR`).  `totalValueLockedUSD` is read through `parseFloat` at
every use site; pools whose TVL string does not parse are not modelled (a
`NaN` TVL would poison the min/max normalization in the source).  The
metric fields are exactly null-or-numeric in the source.  `aprStdDev` is
`Math.sqrt` of the APR variance there; the scoring stage only reads it as
an opaque numeric field, so it ranges over arbitrary rationals here. -/
structure PoolWithAPR where
  id : String
  token0 : Token
  token1 : Token
  feeTier : Option Int
  totalValueLockedUSD : ℚ
  createdAtTimestamp : Option Int
  apr : Option ℚ
  aprStdDev : Option ℚ
  tvlTrend : Option ℚ
  volumeTrend : Option ℚ
  correlation : Option ℚ := none
  score : Option ℚ := none
deriving DecidableEq, Repr

/-- Lower-casing of a string, character by character (`toLowerCase()` in the
source; token addresses are ASCII, where this agrees with the JavaScript
behaviour).  Defined through the character list so that it evaluates by
kernel reduction. -/
def toLowerString (s : String) : String := ⟨s.data.map Char.toLower⟩

/-- The correlation preferences consumed by `calculateTokenCorrelation`. -/
structure CorrOptions where
  preferStableCorrelation : Bool := false
  preferStableBase : Bool := false
  avoidExoticPairs : Bool := false
deriving DecidableEq, Repr

/-- Token-pair correlation heuristic (`token-correlation.utils.ts`,
`calculateTokenCorrelation`): classify the pair by the lowercased token
addresses against the static stable/major sets. -/
def calculateTokenCorrelation (p : PoolWithAPR) (o : CorrOptions) : ℚ :=
  let token0Address := toLowerString p.token0.id
  let token1Address := toLowerString p.token1.id
  let isToken0Stable := STABLE_TOKENS.contains token0Address
  let isToken1Stable := STABLE_TOKENS.contains token1Address
  let bothStable := isToken0Stable && isToken1Stable
  let isToken0Major := MAJOR_TOKENS.contains token0Address
  let isToken1Major := MAJOR_TOKENS.contains token1Address
  let hasMajorToken := isToken0Major || isToken1Major
  let hasStableToken := isToken0Stable || isToken1Stable
  if bothStable then
    if o.preferStableCorrelation then 1 else 0.95
  else if hasStableToken then
    if o.preferStableBase then 0.9 else 0.8
  else if hasMajorToken then 0.6
  else if o.avoidExoticPairs then 0.1
  else 0.3

/-- Modelled from the spec's words, for comparison with
`calculateTokenCorrelation`: first matching rule of — both tokens stable;
exactly one token stable; at least one token major; exotic pair. -/
def specCorrelation (p : PoolWithAPR) (o : CorrOptions) : ℚ :=
  let s0 := STABLE_TOKENS.contains (toLowerString p.token0.id)
  let s1 := STABLE_TOKENS.contains (toLowerString p.token1.id)
  let m0 := MAJOR_TOKENS.contains (toLowerString p.token0.id)
  let m1 := MAJOR_TOKENS.contains (toLowerString p.token1.id)
  if s0 && s1 then
    if o.preferStableCorrelation then 1 else 0.95
  else if (s0 && !s1) || (!s0 && s1) then
    if o.preferStableBase then 0.9 else 0.8
  else if m0 || m1 then 0.6
  else if o.avoidExoticPairs then 0.1
  else 0.3

/-- Range check of the correlation score (`meetsCorrelationCriteria`). -/
def meetsCorrelationCriteria (p : PoolWithAPR)
    (minTokenCorrelation maxTokenCorrelation : ℚ) (o : CorrOptions) : Bool :=
  let correlation := calculateTokenCorrelation p o
  decide (minTokenCorrelation ≤ correlation) &&
    decide (correlation ≤ maxTokenCorrelation)

/-- Fee-tier preference check (`isPreferredFeeTier`): no preference list (or
an empty one) admits every pool; otherwise the parsed fee tier must be in
the list (an unparseable fee tier is `NaN` and never matches). -/
def isPreferredFeeTier (p : PoolWithAPR) (preferredFeeTiers : Option (List Int)) :
    Bool :=
  match preferredFeeTiers with
  | none => true
  | some [] => true
  | some tiers =>
    match p.feeTier with
    | some fee => tiers.contains fee
    | none => false

/-- The options of `getBestPoolsWithScore` (`uniswap.service.ts:248-271`),
with the source's destructuring defaults (`uniswap.service.ts:281-304`).
`maxPoolAgeDays` is tested for truthiness in the source, so a present value
of `0` disables the age filter exactly like an absent one.  `historyDays`
only parameterizes the upstream query and is omitted. -/
structure ScoreOptions where
  minTVL : ℚ := 100000
  minAPR : ℚ := 0
  topN : Int := 10
  maxPoolAgeDays : Option ℚ := none
  preferredFeeTiers : Option (List Int) := none
  minTokenCorrelation : ℚ := 0
  maxTokenCorrelation : ℚ := 1
  correlationWeight : ℚ := 0
  preferStableCorrelation : Bool := false
  preferStableBase : Bool := false
  avoidExoticPairs : Bool := false
  aprWeight : ℚ := 0.4
  tvlWeight : ℚ := 0.2
  volatilityWeight : ℚ := 0.2
  tvlTrendWeight : ℚ := 0.1
  volumeTrendWeight : ℚ := 0.1
deriving DecidableEq, Repr

/-- The correlation preferences a `ScoreOptions` record passes down to
`calculateTokenCorrelation`. -/
def corrOptionsOf (o : ScoreOptions) : CorrOptions :=
  { preferStableCorrelation := o.preferStableCorrelation,
    preferStableBase := o.preferStableBase,
    avoidExoticPairs := o.avoidExoticPairs }

/-- Min-max normalization (`uniswap.service.ts:330-331`): `0` when the
range is degenerate. -/
def normalize (val mn mx : ℚ) : ℚ :=
  if mn < mx then (val - mn) / (mx - mn) else 0

/-- The APR series the pipeline normalizes over (`p.apr ?? 0`). -/
def aprValues (pools : List PoolWithAPR) : List ℚ :=
  pools.map (fun p => p.apr.getD 0)

/-- The TVL series the pipeline normalizes over. -/
def tvlValues (pools : List PoolWithAPR) : List ℚ :=
  pools.map (fun p => p.totalValueLockedUSD)

/-- The volatility series the pipeline normalizes over (`p.aprStdDev ?? 0`). -/
def volValues (pools : List PoolWithAPR) : List ℚ :=
  pools.map (fun p => p.aprStdDev.getD 0)

/-- The TVL-trend series the pipeline normalizes over. -/
def tvlTrendValues (pools : List PoolWithAPR) : List ℚ :=
  pools.map (fun p => p.tvlTrend.getD 0)

/-- The volume-trend series the pipeline normalizes over. -/
def volumeTrendValues (pools : List PoolWithAPR) : List ℚ :=
  pools.map (fun p => p.volumeTrend.getD 0)

/-- The correlation series the pipeline normalizes over
(`uniswap.service.ts:334-342`). -/
def corrValues (pools : List PoolWithAPR) (o : ScoreOptions) : List ℚ :=
  pools.map (fun p => calculateTokenCorrelation p (corrOptionsOf o))

/-- The filter of `getBestPoolsWithScore` (`uniswap.service.ts:346-378`):
APR and TVL thresholds, optional pool-age bound, fee-tier preference and
correlation range.  `now` stands for `Date.now() / 1000`. -/
def passesFilter (o : ScoreOptions) (now : ℚ) (p : PoolWithAPR) : Bool :=
  let meetsBasicCriteria :=
    decide (o.minAPR ≤ p.apr.getD 0) && decide (o.minTVL ≤ p.totalValueLockedUSD)
  let meetsAgeRequirement :=
    match o.maxPoolAgeDays with
    | none => true
    | some maxAge =>
      decide (maxAge = 0) ||
      match p.createdAtTimestamp with
      | none => true
      | some ts => decide ((now - (ts : ℚ)) / (60 * 60 * 24) ≤ maxAge)
  let meetsFeeRequirement := isPreferredFeeTier p o.preferredFeeTiers
  let meetsCorrelationRequirements :=
    meetsCorrelationCriteria p o.minTokenCorrelation o.maxTokenCorrelation
      (corrOptionsOf o)
  meetsBasicCriteria && meetsAgeRequirement && meetsFeeRequirement &&
    meetsCorrelationRequirements

/-- The composite score (`uniswap.service.ts:412-437`): weighted sum of the
normalized metrics, with the weight-adjustment applied when a correlation
weight is present, and the sign-dependent correlation term. -/
def compositeScore (o : ScoreOptions)
    (aprNorm tvlNorm volNorm tvlTrendNorm volumeTrendNorm correlationNorm : ℚ) :
    ℚ :=
  let weightSum :=
    o.aprWeight + o.tvlWeight + o.volatilityWeight + o.tvlTrendWeight +
      o.volumeTrendWeight + |o.correlationWeight|
  let weightAdjustment :=
    if o.correlationWeight ≠ 0 then (1 - |o.correlationWeight|) / weightSum else 1
  aprNorm * o.aprWeight * weightAdjustment +
    tvlNorm * o.tvlWeight * weightAdjustment +
    volNorm * o.volatilityWeight * weightAdjustment +
    tvlTrendNorm * o.tvlTrendWeight * weightAdjustment +
    volumeTrendNorm * o.volumeTrendWeight * weightAdjustment +
    (if 0 ≤ o.correlationWeight then correlationNorm * o.correlationWeight
     else (1 - correlationNorm) * |o.correlationWeight|)

/-- The scoring map of `getBestPoolsWithScore` (`uniswap.service.ts:379-440`)
for one filtered pool: normalize each metric against the min/max of the
whole candidate set, invert the volatility normalization, and attach the
composite score and correlation. -/
def scorePool (pools : List PoolWithAPR) (o : ScoreOptions) (p : PoolWithAPR) :
    PoolWithAPR :=
  let aprNorm := normalize (p.apr.getD 0) (listMin (aprValues pools))
    (listMax (aprValues pools))
  let tvlNorm := normalize p.totalValueLockedUSD (listMin (tvlValues pools))
    (listMax (tvlValues pools))
  let volNorm := 1 - normalize (p.aprStdDev.getD 0) (listMin (volValues pools))
    (listMax (volValues pools))
  let tvlTrendNorm := normalize (p.tvlTrend.getD 0)
    (listMin (tvlTrendValues pools)) (listMax (tvlTrendValues pools))
  let volumeTrendNorm := normalize (p.volumeTrend.getD 0)
    (listMin (volumeTrendValues pools)) (listMax (volumeTrendValues pools))
  let correlation := calculateTokenCorrelation p (corrOptionsOf o)
  let correlationNorm := normalize correlation (listMin (corrValues pools o))
    (listMax (corrValues pools o))
  { p with
    score := some (compositeScore o aprNorm tvlNorm volNorm tvlTrendNorm
      volumeTrendNorm correlationNorm),
    correlation := some correlation }

/-- The scoring/filtering pipeline `getBestPoolsWithScore`
(`uniswap.service.ts:246-444`) with the upstream fetch replaced by the
`pools` argument (the metrics-enriched pool list the fetch would produce):
empty-set early return, min/max over the entire candidate set, filter,
score, sort descending by score, truncate to `topN`. -/
def getBestPoolsWithScore (pools : List PoolWithAPR) (o : ScoreOptions)
    (now : ℚ) : List PoolWithAPR :=
  if pools.length = 0 then []
  else
    let filtered :=
      (pools.filter (passesFilter o now)).map (scorePool pools o)
    (sortDescBy (fun q => q.score.getD 0) filtered).take o.topN.toNat

/-- Risk tier key (`StrategyKey` in `strategy-presets.ts`). -/
inductive StrategyKey where
  | low
  | medium
  | high
deriving DecidableEq, Repr

/-- Position-sizing parameters of one risk profile
(`position-sizing.utils.ts`, `DEFAULT_POSITION_SIZING`). -/
structure SizingProfile where
  maxPositionPercentage : ℚ
  minPositionUSD : ℚ
  targetPositions : Nat
  concentrationFactor : ℚ
deriving DecidableEq, Repr

/-- The static per-profile sizing defaults. -/
def DEFAULT_POSITION_SIZING : StrategyKey → SizingProfile
  | .low => { maxPositionPercentage := 30, minPositionUSD := 500,
              targetPositions := 4, concentrationFactor := 0.7 }
  | .medium => { maxPositionPercentage := 40, minPositionUSD := 250,
                 targetPositions := 3, concentrationFactor := 0.8 }
  | .high => { maxPositionPercentage := 60, minPositionUSD := 100,
               targetPositions := 2, concentrationFactor := 0.9 }

/-- One position-size recommendation (`PositionSize`). -/
structure PositionSize where
  poolId : String
  percentage : ℚ
  targetValueUSD : ℚ
deriving DecidableEq, Repr

/-- The options of `calculatePositionSizes` (`PositionSizingOptions`); the
strategy record is only read through its `key`. -/
structure SizingOptions where
  totalInvestmentUSD : ℚ
  maxPositionPercentage : Option ℚ := none
  minPositionUSD : ℚ := 100
  equalWeight : Bool := false
  strategy : Option StrategyKey := none
deriving DecidableEq, Repr

/-- The risk profile defaults in effect (`strategy?.key || 'medium'`). -/
def sizingProfile (o : SizingOptions) : SizingProfile :=
  DEFAULT_POSITION_SIZING (o.strategy.getD .medium)

/-- The per-position percentage cap in effect
(`maxPositionPercentage ?? profileDefaults.maxPositionPercentage`). -/
def maxPercentOf (o : SizingOptions) : ℚ :=
  o.maxPositionPercentage.getD (sizingProfile o).maxPositionPercentage

/-- The minimum position value in effect
(`Math.max(minPositionUSD, profileDefaults.minPositionUSD)`). -/
def minPositionValueOf (o : SizingOptions) : ℚ :=
  max o.minPositionUSD (sizingProfile o).minPositionUSD

/-- The number of positions targeted
(`Math.min(pools.length, profileDefaults.targetPositions)`). -/
def targetCountOf (pools : List PoolWithAPR) (o : SizingOptions) : Nat :=
  min pools.length (sizingProfile o).targetPositions

/-- The top pools selected for score-weighted sizing (sorted descending by
score, truncated to the target count). -/
def poolsToUseOf (pools : List PoolWithAPR) (o : SizingOptions) :
    List PoolWithAPR :=
  (sortDescBy (fun p => p.score.getD 0) pools).take (targetCountOf pools o)

/-- The total (unweighted) score of the selected pools. -/
def totalScoreOf (pools : List PoolWithAPR) (o : SizingOptions) : ℚ :=
  ((poolsToUseOf pools o).map (fun p => p.score.getD 0)).sum

/-- The intermediate position record of the score-weighted branch
(poolId, score, weightedScore, percentage, targetValueUSD). -/
structure WPos where
  poolId : String
  score : ℚ
  weightedScore : ℚ
  percentage : ℚ
  targetValueUSD : ℚ
deriving DecidableEq, Repr

/-- The concentration multiplier for rank index `i`
(`1 + concentrationFactor * (targetCount - i - 1) / (targetCount - 1)`,
`position-sizing.utils.ts:114`). -/
def concentrationMultiplier (o : SizingOptions) (targetCount : Nat) (i : Nat) :
    ℚ :=
  1 + (sizingProfile o).concentrationFactor *
    ((targetCount : ℚ) - (i : ℚ) - 1) / ((targetCount : ℚ) - 1)

/-- Pair each list element with its index, starting at `i` (models the
index argument of `Array.prototype.map`). -/
def withIdx {α : Type} : Nat → List α → List (Nat × α)
  | _, [] => []
  | i, a :: as => (i, a) :: withIdx (i + 1) as

/-- The initial weighted positions (`position-sizing.utils.ts:112-124`). -/
def initialPositions (pools : List PoolWithAPR) (o : SizingOptions) :
    List WPos :=
  (withIdx 0 (poolsToUseOf pools o)).map (fun pr =>
    { poolId := pr.2.id, score := pr.2.score.getD 0,
      weightedScore := pr.2.score.getD 0 *
        concentrationMultiplier o (targetCountOf pools o) pr.1,
      percentage := 0, targetValueUSD := 0 })

/-- The total weighted score used for normalization. -/
def totalWeightedScoreOf (pools : List PoolWithAPR) (o : SizingOptions) : ℚ :=
  ((initialPositions pools o).map (fun q => q.weightedScore)).sum

/-- Positions with score-normalized percentages
(`position-sizing.utils.ts:127-131`). -/
def normalizedPositions (pools : List PoolWithAPR) (o : SizingOptions) :
    List WPos :=
  (initialPositions pools o).map (fun q =>
    { q with percentage := q.weightedScore / totalWeightedScoreOf pools o * 100 })

/-- The first capping pass (`position-sizing.utils.ts:138-146`): any
percentage above the cap is set to exactly the cap. -/
def cappedPositions (pools : List PoolWithAPR) (o : SizingOptions) :
    List WPos :=
  (normalizedPositions pools o).map (fun q =>
    if maxPercentOf o < q.percentage then { q with percentage := maxPercentOf o }
    else q)

/-- The percentage budget left after the capping pass (the source
accumulates it by subtracting each position's capped percentage from 100). -/
def remainingPercentOf (pools : List PoolWithAPR) (o : SizingOptions) : ℚ :=
  100 - ((normalizedPositions pools o).map (fun q =>
    if maxPercentOf o < q.percentage then maxPercentOf o else q.percentage)).sum

/-- The number of positions not capped in the first pass (the source
decrements a counter for each capped position). -/
def remainingPositionsOf (pools : List PoolWithAPR) (o : SizingOptions) : Nat :=
  ((normalizedPositions pools o).filter (fun q =>
    decide (q.percentage ≤ maxPercentOf o))).length

/-- The total weighted score of positions still strictly under the cap
(`totalUncappedScore`, `position-sizing.utils.ts:150-151`). -/
def uncappedWeightOf (pools : List PoolWithAPR) (o : SizingOptions) : ℚ :=
  (((cappedPositions pools o).filter (fun q =>
    decide (q.percentage < maxPercentOf o))).map (fun q => q.weightedScore)).sum

/-- The second, redistribution pass (`position-sizing.utils.ts:149-160`):
when budget and uncapped positions remain, each position still under the
cap receives a share of the budget proportional to its weighted score. -/
def redistributedPositions (pools : List PoolWithAPR) (o : SizingOptions) :
    List WPos :=
  if 0 < remainingPercentOf pools o ∧ 0 < remainingPositionsOf pools o then
    (cappedPositions pools o).map (fun q =>
      if q.percentage < maxPercentOf o then
        { q with percentage := q.percentage +
            remainingPercentOf pools o *
              (q.weightedScore / uncappedWeightOf pools o) }
      else q)
  else cappedPositions pools o

/-- Optimal position sizes (`position-sizing.utils.ts`,
`calculatePositionSizes`): equal-weight branch, score-weighted branch with
concentration, cap and redistribution, USD valuation, and the final
minimum-size filter.  Degenerate caveat: with a single selected pool the
source's concentration multiplier divides by zero, propagating `NaN` and
yielding an empty result; the theorems below restrict to at least two
pools, where model and source agree. -/
def calculatePositionSizes (pools : List PoolWithAPR) (o : SizingOptions) :
    List PositionSize :=
  if pools.length = 0 then []
  else if o.totalInvestmentUSD ≤ 0 then []
  else
    let maxPercent := maxPercentOf o
    let minPositionValueUSD := minPositionValueOf o
    let sortedPools := sortDescBy (fun p => p.score.getD 0) pools
    if o.equalWeight then
      let positionCount :=
        min pools.length (Int.toNat ⌊o.totalInvestmentUSD / minPositionValueUSD⌋)
      let percentPerPosition := min (100 / (positionCount : ℚ)) maxPercent
      let valuePerPosition := o.totalInvestmentUSD * percentPerPosition / 100
      (sortedPools.take positionCount).map (fun p =>
        { poolId := p.id, percentage := percentPerPosition,
          targetValueUSD := valuePerPosition })
    else if totalScoreOf pools o ≤ 0 then
      let percentPerPosition :=
        min (100 / ((poolsToUseOf pools o).length : ℚ)) maxPercent
      (poolsToUseOf pools o).map (fun p =>
        { poolId := p.id, percentage := percentPerPosition,
          targetValueUSD := o.totalInvestmentUSD * percentPerPosition / 100 })
    else
      let positions := (redistributedPositions pools o).map (fun q =>
        { q with targetValueUSD := o.totalInvestmentUSD * q.percentage / 100 })
      let sizedPositions := positions.filter (fun q =>
        decide (minPositionValueUSD ≤ q.targetValueUSD))
      sizedPositions.map (fun q =>
        { poolId := q.poolId, percentage := q.percentage,
          targetValueUSD := q.targetValueUSD })

/-- A concentrated-liquidity price range (`PriceRange`). -/
structure PriceRange where
  lowerPrice : ℚ
  upperPrice : ℚ
deriving DecidableEq, Repr

/-- A held position (`PositionRebalanceOptions.currentPositions[i]`). -/
structure Position where
  poolId : String
  size : ℚ
  priceRange : Option PriceRange := none
  entryDate : Option Int := none
deriving DecidableEq, Repr

/-- Rebalance action kinds (`RebalanceActionType`). -/
inductive RebalanceActionType where
  | maintain
  | adjustRange
  | increaseSize
  | decreaseSize
  | exitPosition
  | enterPosition
deriving DecidableEq, Repr

/-- A rebalance recommendation (`RebalanceAction`).  The human-readable
`reasons` strings of the source interpolate formatted numbers and are
display-only; they are not modelled.  `reasonCodes` is modelled exactly. -/
structure RebalanceAction where
  actionType : RebalanceActionType
  poolId : String
  token0 : Option String := none
  token1 : Option String := none
  feeTier : Option Int := none
  currentSize : Option ℚ := none
  targetSize : Option ℚ := none
  sizeChangePercent : Option ℚ := none
  currentPriceRange : Option PriceRange := none
  recommendedPriceRange : Option PriceRange := none
  reasonCodes : List String
  priority : ℚ
deriving DecidableEq, Repr

/-- The options of `generateRebalanceRecommendations`
(`PositionRebalanceOptions`); the strategy record is only read through its
`key`. -/
structure RebalanceOptions where
  strategy : Option StrategyKey := none
  currentPositions : List Position
  availableLiquidity : ℚ := 0
  minActionThreshold : ℚ := 10
  maxPositions : Option Int := none
deriving DecidableEq, Repr

/-- Per-profile minimum correlation thresholds used by the rebalancer
(`pool-cache.service.ts:1087-1091` and `1178-1182`). -/
def correlationThreshold : StrategyKey → ℚ
  | .low => 0.7
  | .medium => 0.4
  | .high => 0

/-- Per-profile price-range width multipliers
(`pool-cache.service.ts:925-929`). -/
def widthMultiplier : StrategyKey → ℚ
  | .low => 4
  | .medium => 2.5
  | .high => 1.5

/-- Optimal price range from volatility (`calculateOptimalPriceRange`):
`aprStdDev / 100` when truthy (present and non-zero), else `0.05`, scaled
by the risk profile's width multiplier, centered on the current price. -/
def calculateOptimalPriceRange (pool : PoolWithAPR) (currentPrice : ℚ)
    (strategy : Option StrategyKey) : PriceRange :=
  let riskProfile := strategy.getD .medium
  let volatility :=
    match pool.aprStdDev with
    | some s => if s = 0 then 0.05 else s / 100
    | none => 0.05
  let rangeWidth := volatility * widthMultiplier riskProfile
  { lowerPrice := currentPrice * (1 - rangeWidth),
    upperPrice := currentPrice * (1 + rangeWidth) }

/-- Range-drift test (`needsRangeAdjustment`): percentage differences of
the bounds and widths against the threshold, plus the 20%-of-width
proximity trigger. -/
def needsRangeAdjustment (currentPriceRange optimalPriceRange : PriceRange)
    (currentPrice : ℚ) (minThresholdPercent : ℚ) : Bool :=
  let currentLower := currentPriceRange.lowerPrice
  let currentUpper := currentPriceRange.upperPrice
  let currentWidth := currentUpper - currentLower
  let optimalLower := optimalPriceRange.lowerPrice
  let optimalUpper := optimalPriceRange.upperPrice
  let optimalWidth := optimalUpper - optimalLower
  let lowerDiffPercent := |(optimalLower - currentLower) / currentLower * 100|
  let upperDiffPercent := |(optimalUpper - currentUpper) / currentUpper * 100|
  let widthDiffPercent := |(optimalWidth - currentWidth) / currentWidth * 100|
  let priceProximityToLower := (currentPrice - currentLower) / currentWidth
  let priceProximityToUpper := (currentUpper - currentPrice) / currentWidth
  let isNearBoundary :=
    decide (priceProximityToLower < 0.2) || decide (priceProximityToUpper < 0.2)
  decide (minThresholdPercent < lowerDiffPercent) ||
    decide (minThresholdPercent < upperDiffPercent) ||
    decide (minThresholdPercent < widthDiffPercent) || isNearBoundary

/-- The pool lookup map of the rebalancer (`poolsMap`): `Map.set` in
iteration order, so the last pool with a given id wins. -/
def lookupPool (pools : List PoolWithAPR) (poolId : String) :
    Option PoolWithAPR :=
  pools.foldl (fun acc p => if p.id = poolId then some p else acc) none

/-- Step 1 of `generateRebalanceRecommendations`
(`pool-cache.service.ts:1016-1151`) for one position: exit when the pool is
missing from the universe; otherwise accumulate range-drift, APR-change,
correlation and absolute-APR-floor signals (the current price and the APR
change are the source's placeholders `1.0` and `0`), resolve the action
type, and drop `maintain`. -/
def analyzePosition (pools : List PoolWithAPR) (o : RebalanceOptions)
    (pos : Position) : Option RebalanceAction :=
  match lookupPool pools pos.poolId with
  | none =>
    some { actionType := .exitPosition, poolId := pos.poolId,
           currentSize := some pos.size, targetSize := some 0,
           sizeChangePercent := some (-100),
           reasonCodes := ["pool_tvl_decline"], priority := 9 }
  | some pool =>
    let currentPrice : ℚ := 1
    let aprChangePercent : ℚ := 0
    let optimalPriceRange :=
      calculateOptimalPriceRange pool currentPrice o.strategy
    let rangeAdjustmentNeeded :=
      match pos.priceRange with
      | some r =>
        needsRangeAdjustment r optimalPriceRange currentPrice
          o.minActionThreshold
      | none => false
    let st1 : List String × ℚ :=
      if rangeAdjustmentNeeded then (["range_inefficiency"], max 1 7)
      else ([], 1)
    let st2 : List String × ℚ :=
      if o.minActionThreshold < |aprChangePercent| then
        if aprChangePercent < 0 then (st1.1 ++ ["apr_decline"], max st1.2 6)
        else (st1.1 ++ ["apr_increase"], max st1.2 4)
      else st1
    let riskProfile := o.strategy.getD .medium
    let st3 : List String × ℚ × ℚ :=
      match pool.correlation with
      | some c =>
        if c < correlationThreshold riskProfile then
          (st2.1 ++ ["correlation_change"], max st2.2 8, -50)
        else (st2.1, st2.2, 0)
      | none => (st2.1, st2.2, 0)
    let st4 : List String × ℚ × ℚ :=
      match pool.apr with
      | some a =>
        if a < 5 then (st3.1 ++ ["apr_decline"], max st3.2.1 9, st3.2.2 - 100)
        else st3
      | none => st3
    let reasonCodes := st4.1
    let priority := st4.2.1
    let sizeAdjustmentPercent := st4.2.2
    let actionType : RebalanceActionType :=
      if sizeAdjustmentPercent ≤ -100 then .exitPosition
      else if sizeAdjustmentPercent < 0 then .decreaseSize
      else if 0 < sizeAdjustmentPercent then .increaseSize
      else if rangeAdjustmentNeeded then .adjustRange
      else .maintain
    if actionType = .maintain then none
    else
      some { actionType := actionType, poolId := pos.poolId,
             token0 := some pool.token0.symbol,
             token1 := some pool.token1.symbol, feeTier := pool.feeTier,
             currentSize := some pos.size,
             targetSize :=
               some (max 0 (pos.size * (1 + sizeAdjustmentPercent / 100))),
             sizeChangePercent := some sizeAdjustmentPercent,
             currentPriceRange := pos.priceRange,
             recommendedPriceRange := some optimalPriceRange,
             reasonCodes := reasonCodes, priority := priority }

/-- Step 2 of `generateRebalanceRecommendations`
(`pool-cache.service.ts:1153-1209`): enter-position proposals for new
capital, from the best-scored pools not already held, skipping low-APR and
low-correlation pools, sized from 80% of the available liquidity. -/
def newOpportunityActions (pools : List PoolWithAPR) (o : RebalanceOptions) :
    List RebalanceAction :=
  let maxPositions : Int := o.maxPositions.getD (o.currentPositions.length : Int)
  if 0 < o.availableLiquidity ∧ (o.currentPositions.length : Int) < maxPositions
  then
    let existingPoolIds := o.currentPositions.map (fun p => p.poolId)
    let newPoolCandidates :=
      sortDescBy (fun p => p.score.getD 0)
        (pools.filter (fun p => !(existingPoolIds.contains p.id)))
    let slotsAvailable := maxPositions - (o.currentPositions.length : Int)
    let n := min slotsAvailable (newPoolCandidates.length : Int)
    let avgNewPositionSize := o.availableLiquidity * 0.8 / (n : ℚ)
    let riskProfile := o.strategy.getD .medium
    ((newPoolCandidates.take n.toNat).filter (fun pool =>
      (match pool.apr with | some a => decide (5 ≤ a) | none => false) &&
      (match pool.correlation with
       | some c => decide (correlationThreshold riskProfile ≤ c)
       | none => true))).map (fun pool =>
      { actionType := .enterPosition, poolId := pool.id,
        token0 := some pool.token0.symbol, token1 := some pool.token1.symbol,
        feeTier := pool.feeTier, currentSize := some 0,
        targetSize := some avgNewPositionSize, sizeChangePercent := some 100,
        recommendedPriceRange :=
          some (calculateOptimalPriceRange pool 1 o.strategy),
        reasonCodes := ["new_opportunity"], priority := 5 })
  else []

/-- The rebalancer (`generateRebalanceRecommendations`): analyze every held
position, append the new-capital proposals, and sort descending by
priority. -/
def generateRebalanceRecommendations (pools : List PoolWithAPR)
    (o : RebalanceOptions) : List RebalanceAction :=
  sortDescBy (fun a => a.priority)
    (o.currentPositions.filterMap (analyzePosition pools o) ++
      newOpportunityActions pools o)

/-- A per-tier cache entry (`pool-cache.service.ts:14-25`). -/
structure CacheEntry where
  pools : List PoolWithAPR
  averageApr : ℚ
  timestamp : Int
deriving DecidableEq, Repr

/-- The per-tier refresh (`refreshStrategyPools`,
`pool-cache.service.ts:70-190`).  Each upstream source query is wrapped in
its own try/catch with a timeout and degrades to an empty list on failure
(`none` here models a source that errored or timed out); the combined list
is then stored unconditionally, replacing the tier's previous entry `prev`
(which the source method never reads). -/
def refreshStrategyPools (prev : CacheEntry) (v3 v4 : Option (List PoolWithAPR))
    (now : Int) : CacheEntry :=
  let v3Pools := v3.getD []
  let v4Pools := v4.getD []
  let pools := v3Pools ++ v4Pools
  let validAprs := pools.filterMap (fun p => p.apr)
  let averageApr :=
    if 0 < validAprs.length then validAprs.sum / (validAprs.length : ℚ) else 0
  { pools := pools, averageApr := averageApr, timestamp := now }

/-- Impermanent-loss estimate (`estimateImpermanentLoss`,
`pool-cache.service.ts:1221-1231`): convert the percentage change to a
price ratio and apply `(2 * sqrt(r) / (1 + r) - 1) * 100`.  This is the one
function whose behaviour depends on the real square root, so it is
modelled over `ℝ`; its `initialPrice` parameter is never read. -/
noncomputable def estimateImpermanentLoss (initialPrice priceChangePercent : ℝ) :
    ℝ :=
  let priceRatio := 1 + priceChangePercent / 100
  let sqrtPriceRatio := Real.sqrt priceRatio
  (2 * sqrtPriceRatio / (1 + priceRatio) - 1) * 100

/-! ## Claim theorems -/

/-- Helper: the impermanent-loss estimate written out explicitly. -/
theorem estimateImpermanentLoss_eq (q pct : ℝ) :
    estimateImpermanentLoss q pct =
      (2 * Real.sqrt (1 + pct / 100) / (1 + (1 + pct / 100)) - 1) * 100 := rfl

/-- C10: `estimateImpermanentLoss` does not depend on its `initialPrice`
argument, and for every price change above −100% its value is non-positive
and vanishes exactly at a zero price change. -/
theorem C10_impermanent_loss_nonpositive (p₀ p₁ pct : ℝ) :
    estimateImpermanentLoss p₀ pct = estimateImpermanentLoss p₁ pct ∧
    (-100 < pct →
      estimateImpermanentLoss p₀ pct ≤ 0 ∧
      (estimateImpermanentLoss p₀ pct = 0 ↔ pct = 0)) := by
  constructor
  · rfl
  · intro hpct
    rw [estimateImpermanentLoss_eq]
    have hr : (0 : ℝ) < 1 + pct / 100 := by linarith
    have hs2 : Real.sqrt (1 + pct / 100) ^ 2 = 1 + pct / 100 :=
      Real.sq_sqrt hr.le
    have hs0 : 0 ≤ Real.sqrt (1 + pct / 100) := Real.sqrt_nonneg _
    have h1r : (0 : ℝ) < 1 + (1 + pct / 100) := by linarith
    have hkey : 2 * Real.sqrt (1 + pct / 100) ≤ 1 + (1 + pct / 100) := by
      nlinarith [sq_nonneg (Real.sqrt (1 + pct / 100) - 1)]
    have hdiv :
        2 * Real.sqrt (1 + pct / 100) / (1 + (1 + pct / 100)) ≤ 1 :=
      (div_le_one h1r).mpr hkey
    refine ⟨by nlinarith, ?_, ?_⟩
    · intro h0
      have h1 : 2 * Real.sqrt (1 + pct / 100) / (1 + (1 + pct / 100)) - 1 = 0 := by
        rcases mul_eq_zero.mp h0 with h | h
        · exact h
        · norm_num at h
      have h2 : 2 * Real.sqrt (1 + pct / 100) = 1 + (1 + pct / 100) := by
        have h1' : 2 * Real.sqrt (1 + pct / 100) / (1 + (1 + pct / 100)) = 1 :=
          by linarith
        rw [div_eq_iff h1r.ne'] at h1'
        linarith
      have h5 : (Real.sqrt (1 + pct / 100) - 1) ^ 2 = 0 := by
        have hexp : (Real.sqrt (1 + pct / 100) - 1) ^ 2 =
            Real.sqrt (1 + pct / 100) ^ 2 -
              2 * Real.sqrt (1 + pct / 100) + 1 := by ring
        rw [hexp, hs2]
        linarith
      have h6 : Real.sqrt (1 + pct / 100) = 1 :=
        sub_eq_zero.mp (sq_eq_zero_iff.mp h5)
      have h7 : (1 : ℝ) + pct / 100 = 1 := by
        rw [← hs2, h6]
        norm_num
      linarith
    · intro h0
      rw [h0]
      norm_num

/-- Witness for C10 at the concrete price change 0%. -/
theorem C10_impermanent_loss_nonpositive_witness :
    estimateImpermanentLoss 1 0 = estimateImpermanentLoss 2 0 ∧
    (estimateImpermanentLoss 1 0 ≤ 0 ∧
      (estimateImpermanentLoss 1 0 = 0 ↔ (0 : ℝ) = 0)) :=
  ⟨(C10_impermanent_loss_nonpositive 1 2 0).1,
    (C10_impermanent_loss_nonpositive 1 2 0).2 (by norm_num)⟩

/-- The previous cache entry used in the C1 counterexample: a tier that
already holds one pool. -/
def c1PrevEntry : CacheEntry :=
  { pools := [{ id := "0xpool", token0 := { id := "0xa", symbol := "A", name := "A" },
                token1 := { id := "0xb", symbol := "B", name := "B" },
                feeTier := some 500, totalValueLockedUSD := 1000000,
                createdAtTimestamp := none, apr := some 12,
                aprStdDev := some 1, tvlTrend := some 0,
                volumeTrend := some 0 }],
    averageApr := 12, timestamp := 0 }

/-- C1 counterexample: when both upstream sources fail (total refresh
failure), the refresh does not retain the previous non-empty entry — it
stores a replacement whose pool list is empty. -/
theorem C1_total_failure_counterexample :
    refreshStrategyPools c1PrevEntry none none 42 ≠ c1PrevEntry ∧
    (refreshStrategyPools c1PrevEntry none none 42).pools = [] ∧
    c1PrevEntry.pools ≠ [] := by
  refine ⟨?_, rfl, by decide⟩
  intro h
  have := congrArg CacheEntry.pools h
  simp [refreshStrategyPools, c1PrevEntry] at this

/-- C1 amended: on total failure of all sources the refresh procedure
replaces the tier's entry wholesale with an empty one (no pools, average
APR 0, fresh timestamp); the previous entry is never consulted. -/
theorem C1_total_failure_stores_empty_entry (prev : CacheEntry) (now : Int) :
    refreshStrategyPools prev none none now =
      { pools := [], averageApr := 0, timestamp := now } := rfl

/-- The snapshot used in the C2 counterexample: `feesUSD` parses to a
negative number, `tvlUSD` to a positive one. -/
def c2Day : PoolDayData :=
  { date := 0, feesUSD := some (-1), volumeUSD := some 5, tvlUSD := some 100 }

/-- The pool used in the C2 counterexample. -/
def c2Pool : Pool :=
  { id := "0xc2", token0 := { id := "0xa", symbol := "A", name := "A" },
    token1 := { id := "0xb", symbol := "B", name := "B" },
    feeTier := some 500, totalValueLockedUSD := some 1000,
    poolDayData := [c2Day], createdAtTimestamp := none }

/-- C2 counterexample: a snapshot whose `feesUSD` parses to −1 is not valid
under the claim's non-negativity condition, yet the code counts it as valid
and includes it in the window average (which becomes −365 here instead of
the claim's `null`). -/
theorem C2_negative_fees_counterexample :
    validDay c2Day = true ∧ specValidDay c2Day = false ∧
    (computeMetrics c2Pool).averageApr7d = some (-365) := by
  refine ⟨rfl, rfl, ?_⟩
  have h : (computeMetrics c2Pool).averageApr7d =
      some (([c2Day].map dayAPR).sum / (([c2Day].map dayAPR).length : ℚ)) := rfl
  rw [h]
  norm_num [dayAPR, c2Day]

/-- C2 amended: a snapshot is valid iff `feesUSD` and `tvlUSD` both parse
to numbers and `tvlUSD > 0` — the source accepts negative `feesUSD` in the
window computations — and the window volatility (variance here, of which
the source stores the square root) is computed over exactly the valid-day
subsequence, whenever the pool's current TVL parses positive and at least
one valid day exists. -/
theorem C2_valid_day_filter (d : PoolDayData) (p : Pool) :
    (validDay d = true ↔
      d.feesUSD.isSome = true ∧ ∃ t, d.tvlUSD = some t ∧ 0 < t) ∧
    (computeMetrics p).aprVariance =
      (if tvlPos p.totalValueLockedUSD = true ∧
          p.poolDayData.filter validDay ≠ [] then
        some ((((p.poolDayData.filter validDay).map dayAPR).map
            (fun v => (v - ((p.poolDayData.filter validDay).map dayAPR).sum /
              (((p.poolDayData.filter validDay).map dayAPR).length : ℚ)) ^ 2)).sum /
          (((p.poolDayData.filter validDay).map dayAPR).length : ℚ))
      else none) := by
  constructor
  · rcases d with ⟨date, fees, vol, tvl⟩
    cases fees <;> cases tvl <;>
      simp [validDay, tvlPos]
  · by_cases h1 : 0 < p.poolDayData.length ∧ tvlPos p.totalValueLockedUSD = true
    · by_cases h2 : 0 < (p.poolDayData.filter validDay).length
      · have hne : p.poolDayData.filter validDay ≠ [] := by
          intro h
          rw [h] at h2
          exact absurd h2 (by simp)
        rw [if_pos ⟨h1.2, hne⟩]
        simp only [computeMetrics, if_pos h1, gt_iff_lt, if_pos h2]
        split <;> rfl
      · have hemp : p.poolDayData.filter validDay = [] := by
          cases hf : p.poolDayData.filter validDay with
          | nil => rfl
          | cons a as =>
            rw [hf] at h2
            exact absurd (by simp) h2
        rw [if_neg (by simp [hemp])]
        simp only [computeMetrics, if_pos h1, gt_iff_lt, if_neg h2]
    · have hcond : ¬(tvlPos p.totalValueLockedUSD = true ∧
          p.poolDayData.filter validDay ≠ []) := by
        intro hc
        apply h1
        refine ⟨?_, hc.1⟩
        cases hd : p.poolDayData with
        | nil =>
          rw [hd] at hc
          exact absurd rfl hc.2.elim
        | cons a as => simp [hd]
      rw [if_neg hcond]
      simp only [computeMetrics, if_neg h1]

/-- The pool used in the C3 counterexample: one perfectly valid snapshot,
but a current TVL of 0. -/
def c3Pool : Pool :=
  { id := "0xc3", token0 := { id := "0xa", symbol := "A", name := "A" },
    token1 := { id := "0xb", symbol := "B", name := "B" },
    feeTier := some 500, totalValueLockedUSD := some 0,
    poolDayData :=
      [{ date := 0, feesUSD := some 10, volumeUSD := some 5,
         tvlUSD := some 1000 }],
    createdAtTimestamp := none }

/-- C3 counterexample: a pool with one valid day but a current TVL of 0 has
`averageApr7d = null`, so the window average is not null exactly when the
pool has zero valid days. -/
theorem C3_zero_tvl_counterexample :
    (computeMetrics c3Pool).averageApr7d = none ∧
    (c3Pool.poolDayData.filter validDay).length = 1 := ⟨rfl, rfl⟩

/-- C3 amended: the window-average APR equals the arithmetic mean of
`(feesUSD/tvlUSD)*365*100` over the valid days whenever the pool's current
TVL parses to a positive number and at least one valid day exists; it is
null exactly when there are zero valid days or the current TVL does not
parse positive. -/
theorem C3_average_apr_formula (p : Pool) :
    (computeMetrics p).averageApr7d =
      (if tvlPos p.totalValueLockedUSD = true ∧
          p.poolDayData.filter validDay ≠ [] then
        some ((((p.poolDayData.filter validDay).map dayAPR).sum) /
          (((p.poolDayData.filter validDay).map dayAPR).length : ℚ))
      else none) := by
  by_cases h1 : 0 < p.poolDayData.length ∧ tvlPos p.totalValueLockedUSD = true
  · by_cases h2 : 0 < (p.poolDayData.filter validDay).length
    · have hne : p.poolDayData.filter validDay ≠ [] := by
        intro h
        rw [h] at h2
        exact absurd h2 (by simp)
      rw [if_pos ⟨h1.2, hne⟩]
      simp only [computeMetrics, if_pos h1, gt_iff_lt, if_pos h2]
      split <;> rfl
    · have hemp : p.poolDayData.filter validDay = [] := by
        cases hf : p.poolDayData.filter validDay with
        | nil => rfl
        | cons a as =>
          rw [hf] at h2
          exact absurd (by simp) h2
      rw [if_neg (by simp [hemp])]
      simp only [computeMetrics, if_pos h1, gt_iff_lt, if_neg h2]
  · have hcond : ¬(tvlPos p.totalValueLockedUSD = true ∧
        p.poolDayData.filter validDay ≠ []) := by
      intro hc
      apply h1
      refine ⟨?_, hc.1⟩
      cases hd : p.poolDayData with
      | nil =>
        rw [hd] at hc
        exact absurd rfl hc.2.elim
      | cons a as => simp [hd]
    rw [if_neg hcond]
    simp only [computeMetrics, if_neg h1]

/-- C5: `calculateTokenCorrelation` returns exactly the value of the first
matching classification rule (both stable; exactly one stable; at least one
major; exotic), with the strategy-preference overrides, and the result
always lies in `[0, 1]`. -/
theorem C5_token_correlation (p : PoolWithAPR) (o : CorrOptions) :
    calculateTokenCorrelation p o = specCorrelation p o ∧
    0 ≤ calculateTokenCorrelation p o ∧ calculateTokenCorrelation p o ≤ 1 := by
  simp only [calculateTokenCorrelation, specCorrelation]
  cases h0 : STABLE_TOKENS.contains (toLowerString p.token0.id) <;>
    cases h1 : STABLE_TOKENS.contains (toLowerString p.token1.id) <;>
    cases hm0 : MAJOR_TOKENS.contains (toLowerString p.token0.id) <;>
    cases hm1 : MAJOR_TOKENS.contains (toLowerString p.token1.id) <;>
    cases hpc : o.preferStableCorrelation <;>
    cases hpb : o.preferStableBase <;>
    cases hae : o.avoidExoticPairs <;>
    simp [h0, h1, hm0, hm1, hpc, hpb, hae] <;>
    norm_num

/-- Helper: every pool returned by the pipeline is the scoring of a member
of the candidate set that passed the filter. -/
theorem mem_getBestPoolsWithScore {pools : List PoolWithAPR} {o : ScoreOptions}
    {now : ℚ} {q : PoolWithAPR}
    (hq : q ∈ getBestPoolsWithScore pools o now) :
    ∃ p, p ∈ pools ∧ passesFilter o now p = true ∧ q = scorePool pools o p := by
  unfold getBestPoolsWithScore at hq
  by_cases h : pools.length = 0
  · simp [h] at hq
  · rw [if_neg h] at hq
    have hq1 : q ∈ sortDescBy (fun q => q.score.getD 0)
        ((pools.filter (passesFilter o now)).map (scorePool pools o)) :=
      List.mem_of_mem_take hq
    rw [mem_sortDescBy] at hq1
    rcases List.mem_map.mp hq1 with ⟨p, hp, hqp⟩
    rcases List.mem_filter.mp hp with ⟨hp1, hp2⟩
    exact ⟨p, hp1, hp2, hqp.symm⟩

/-- C4: with a non-zero correlation weight, every returned pool's score is
the weight-adjusted sum of the five non-correlation terms plus the
sign-dependent correlation term. -/
theorem C4_composite_score_with_correlation (pools : List PoolWithAPR)
    (o : ScoreOptions) (now : ℚ) (q : PoolWithAPR)
    (hcw : o.correlationWeight ≠ 0)
    (hq : q ∈ getBestPoolsWithScore pools o now) :
    q.score = some
      (normalize (q.apr.getD 0) (listMin (aprValues pools))
          (listMax (aprValues pools)) * o.aprWeight *
          ((1 - |o.correlationWeight|) /
            (o.aprWeight + o.tvlWeight + o.volatilityWeight +
              o.tvlTrendWeight + o.volumeTrendWeight + |o.correlationWeight|)) +
        normalize q.totalValueLockedUSD (listMin (tvlValues pools))
          (listMax (tvlValues pools)) * o.tvlWeight *
          ((1 - |o.correlationWeight|) /
            (o.aprWeight + o.tvlWeight + o.volatilityWeight +
              o.tvlTrendWeight + o.volumeTrendWeight + |o.correlationWeight|)) +
        (1 - normalize (q.aprStdDev.getD 0) (listMin (volValues pools))
          (listMax (volValues pools))) * o.volatilityWeight *
          ((1 - |o.correlationWeight|) /
            (o.aprWeight + o.tvlWeight + o.volatilityWeight +
              o.tvlTrendWeight + o.volumeTrendWeight + |o.correlationWeight|)) +
        normalize (q.tvlTrend.getD 0) (listMin (tvlTrendValues pools))
          (listMax (tvlTrendValues pools)) * o.tvlTrendWeight *
          ((1 - |o.correlationWeight|) /
            (o.aprWeight + o.tvlWeight + o.volatilityWeight +
              o.tvlTrendWeight + o.volumeTrendWeight + |o.correlationWeight|)) +
        normalize (q.volumeTrend.getD 0) (listMin (volumeTrendValues pools))
          (listMax (volumeTrendValues pools)) * o.volumeTrendWeight *
          ((1 - |o.correlationWeight|) /
            (o.aprWeight + o.tvlWeight + o.volatilityWeight +
              o.tvlTrendWeight + o.volumeTrendWeight + |o.correlationWeight|)) +
        (if 0 ≤ o.correlationWeight then
            normalize (calculateTokenCorrelation q (corrOptionsOf o))
              (listMin (corrValues pools o)) (listMax (corrValues pools o)) *
              o.correlationWeight
          else
            (1 - normalize (calculateTokenCorrelation q (corrOptionsOf o))
              (listMin (corrValues pools o)) (listMax (corrValues pools o))) *
              |o.correlationWeight|)) := by
  rcases mem_getBestPoolsWithScore hq with ⟨p, hp, hf, rfl⟩
  simp only [scorePool, compositeScore]
  rw [if_pos hcw]
  rfl

/-- Helper: min-max normalization of a value between the bounds lies in
`[0, 1]`. -/
theorem normalize_mem_unit {v mn mx : ℚ} (h1 : mn ≤ v) (h2 : v ≤ mx) :
    0 ≤ normalize v mn mx ∧ normalize v mn mx ≤ 1 := by
  unfold normalize
  split
  · rename_i h
    constructor
    · apply div_nonneg <;> linarith
    · rw [div_le_one (by linarith)]
      linarith
  · norm_num

/-- C8: with correlation weight 0 and non-negative weights summing to at
most 1, every returned pool's composite score lies in
`[0, sum of the five weights]`. -/
theorem C8_score_bounds (pools : List PoolWithAPR) (o : ScoreOptions) (now : ℚ)
    (q : PoolWithAPR) (hcw : o.correlationWeight = 0)
    (ha : 0 ≤ o.aprWeight) (ht : 0 ≤ o.tvlWeight) (hv : 0 ≤ o.volatilityWeight)
    (htt : 0 ≤ o.tvlTrendWeight) (hvt : 0 ≤ o.volumeTrendWeight)
    (hsum : o.aprWeight + o.tvlWeight + o.volatilityWeight + o.tvlTrendWeight +
      o.volumeTrendWeight ≤ 1)
    (hq : q ∈ getBestPoolsWithScore pools o now) :
    ∃ s, q.score = some s ∧ 0 ≤ s ∧
      s ≤ o.aprWeight + o.tvlWeight + o.volatilityWeight + o.tvlTrendWeight +
        o.volumeTrendWeight := by
  rcases mem_getBestPoolsWithScore hq with ⟨p, hp, hf, rfl⟩
  have hmemA : p.apr.getD 0 ∈ aprValues pools := List.mem_map_of_mem _ hp
  have hmemT : p.totalValueLockedUSD ∈ tvlValues pools :=
    List.mem_map_of_mem _ hp
  have hmemV : p.aprStdDev.getD 0 ∈ volValues pools := List.mem_map_of_mem _ hp
  have hmemTT : p.tvlTrend.getD 0 ∈ tvlTrendValues pools :=
    List.mem_map_of_mem _ hp
  have hmemVT : p.volumeTrend.getD 0 ∈ volumeTrendValues pools :=
    List.mem_map_of_mem _ hp
  have hA := normalize_mem_unit (listMin_le hmemA) (le_listMax hmemA)
  have hT := normalize_mem_unit (listMin_le hmemT) (le_listMax hmemT)
  have hV := normalize_mem_unit (listMin_le hmemV) (le_listMax hmemV)
  have hTT := normalize_mem_unit (listMin_le hmemTT) (le_listMax hmemTT)
  have hVT := normalize_mem_unit (listMin_le hmemVT) (le_listMax hmemVT)
  have hV1 : 0 ≤ 1 - normalize (p.aprStdDev.getD 0) (listMin (volValues pools))
      (listMax (volValues pools)) := by linarith [hV.2]
  have hV2 : 1 - normalize (p.aprStdDev.getD 0) (listMin (volValues pools))
      (listMax (volValues pools)) ≤ 1 := by linarith [hV.1]
  refine ⟨_, rfl, ?_, ?_⟩
  · simp only [scorePool, compositeScore, hcw, abs_zero, mul_zero, add_zero,
      ne_eq, not_true_eq_false, if_false, mul_one, le_refl, if_true]
    have t1 := mul_nonneg hA.1 ha
    have t2 := mul_nonneg hT.1 ht
    have t3 := mul_nonneg hV1 hv
    have t4 := mul_nonneg hTT.1 htt
    have t5 := mul_nonneg hVT.1 hvt
    linarith
  · simp only [scorePool, compositeScore, hcw, abs_zero, mul_zero, add_zero,
      ne_eq, not_true_eq_false, if_false, mul_one, le_refl, if_true]
    have u1 := mul_le_of_le_one_left ha hA.2
    have u2 := mul_le_of_le_one_left ht hT.2
    have u3 := mul_le_of_le_one_left hv hV2
    have u4 := mul_le_of_le_one_left htt hTT.2
    have u5 := mul_le_of_le_one_left hvt hVT.2
    linarith

/-- Helper: a pointwise-stronger boolean filter keeps at most as many
elements. -/
theorem length_filter_mono {α : Type} {p q : α → Bool}
    (h : ∀ a, p a = true → q a = true) :
    ∀ l : List α, (l.filter p).length ≤ (l.filter q).length := by
  intro l
  induction l with
  | nil => exact le_refl 0
  | cons a as ih =>
    by_cases hpa : p a = true
    · rw [List.filter_cons_of_pos hpa, List.filter_cons_of_pos (h a hpa)]
      simpa using ih
    · rw [List.filter_cons_of_neg (by simpa using hpa)]
      cases hqa : q a
      · rw [List.filter_cons_of_neg (by simp [hqa])]
        exact ih
      · rw [List.filter_cons_of_pos hqa]
        simp only [List.length_cons]
        exact le_trans ih (Nat.le_succ _)

/-- Helper: raising the TVL threshold only strengthens the pipeline
filter. -/
theorem passesFilter_minTVL_mono {o : ScoreOptions} {now t1 t2 : ℚ}
    (h12 : t1 ≤ t2) (p : PoolWithAPR)
    (hp : passesFilter { o with minTVL := t2 } now p = true) :
    passesFilter { o with minTVL := t1 } now p = true := by
  simp only [passesFilter, Bool.and_eq_true, decide_eq_true_eq] at hp ⊢
  refine ⟨⟨⟨⟨hp.1.1.1.1, ?_⟩, hp.1.1.2⟩, hp.1.2⟩, hp.2⟩
  have := hp.1.1.1.2
  linarith

/-- C9: for a fixed candidate set and otherwise fixed options, raising
`minTVL` never increases the number of pools returned by the pipeline. -/
theorem C9_minTVL_monotonicity (pools : List PoolWithAPR) (o : ScoreOptions)
    (now t1 t2 : ℚ) (h12 : t1 ≤ t2) :
    (getBestPoolsWithScore pools { o with minTVL := t2 } now).length ≤
      (getBestPoolsWithScore pools { o with minTVL := t1 } now).length := by
  unfold getBestPoolsWithScore
  by_cases h : pools.length = 0
  · simp [h]
  · rw [if_neg h, if_neg h]
    rw [List.length_take, List.length_take, length_sortDescBy, length_sortDescBy,
      List.length_map, List.length_map]
    exact min_le_min (le_refl _)
      (length_filter_mono (passesFilter_minTVL_mono h12) pools)

/-- Witness for C9 with thresholds 1 ≤ 2. -/
theorem C9_minTVL_monotonicity_witness :
    (1 : ℚ) ≤ 2 ∧
    (getBestPoolsWithScore [] { minTVL := 2 } 0).length ≤
      (getBestPoolsWithScore [] { minTVL := 1 } 0).length :=
  ⟨by norm_num,
    C9_minTVL_monotonicity [] { minTVL := 1 } 0 1 2 (by norm_num)⟩

/-- Helper: a single candidate pool that passes the filter is returned by
the pipeline (whenever `topN` is positive). -/
theorem mem_getBest_singleton {p : PoolWithAPR} {o : ScoreOptions} {now : ℚ}
    (hfil : passesFilter o now p = true) (htop : 0 < o.topN.toNat) :
    scorePool [p] o p ∈ getBestPoolsWithScore [p] o now := by
  unfold getBestPoolsWithScore
  rw [if_neg (by simp)]
  rw [List.filter_cons_of_pos hfil]
  cases hn : o.topN.toNat with
  | zero =>
    rw [hn] at htop
    exact absurd htop (by simp)
  | succ m =>
    simp [sortDescBy, insertDescBy]

/-- The exotic-pair pool used by the pipeline witnesses. -/
def w4Pool : PoolWithAPR :=
  { id := "0xw4", token0 := { id := "0xAAA1", symbol := "T0", name := "T0" },
    token1 := { id := "0xBBB2", symbol := "T1", name := "T1" },
    feeTier := some 500, totalValueLockedUSD := 1000000,
    createdAtTimestamp := none, apr := some 10, aprStdDev := some 2,
    tvlTrend := some 1, volumeTrend := some 1 }

/-- Helper: the witness pool classifies as an exotic pair. -/
theorem w4Pool_correlation (c : CorrOptions)
    (hav : c.avoidExoticPairs = false) :
    calculateTokenCorrelation w4Pool c = 0.3 := by
  simp only [calculateTokenCorrelation, w4Pool]
  simp only [show STABLE_TOKENS.contains (toLowerString "0xAAA1") = false from
      by decide,
    show STABLE_TOKENS.contains (toLowerString "0xBBB2") = false from by decide,
    show MAJOR_TOKENS.contains (toLowerString "0xAAA1") = false from by decide,
    show MAJOR_TOKENS.contains (toLowerString "0xBBB2") = false from by decide,
    hav]
  norm_num

/-- The options used by the C4 witness: a non-zero correlation weight over
otherwise default weights, with the TVL threshold lowered. -/
def w4Opts : ScoreOptions := { minTVL := 0, correlationWeight := 1/2 }

/-- Helper: the witness pool passes the C4 witness filter. -/
theorem w4Pool_passes : passesFilter w4Opts 0 w4Pool = true := by
  unfold passesFilter
  simp only [Bool.and_eq_true]
  refine ⟨⟨⟨⟨?_, ?_⟩, ?_⟩, ?_⟩, ?_⟩
  · norm_num [w4Opts, w4Pool]
  · norm_num [w4Opts, w4Pool]
  · rfl
  · rfl
  · unfold meetsCorrelationCriteria
    rw [w4Pool_correlation _ rfl]
    simp only [Bool.and_eq_true, decide_eq_true_eq]
    norm_num [w4Opts]

/-- Witness for C4: one exotic pool, correlation weight 1/2; the pipeline
returns it and its score evaluates to 1/15 (all min-max ranges are
degenerate, so only the inverted volatility term contributes, scaled by the
adjustment factor 1/3). -/
theorem C4_composite_score_with_correlation_witness :
    w4Opts.correlationWeight ≠ 0 ∧
    scorePool [w4Pool] w4Opts w4Pool ∈ getBestPoolsWithScore [w4Pool] w4Opts 0 ∧
    (scorePool [w4Pool] w4Opts w4Pool).score = some (1/15) := by
  have hmem : scorePool [w4Pool] w4Opts w4Pool ∈
      getBestPoolsWithScore [w4Pool] w4Opts 0 :=
    mem_getBest_singleton w4Pool_passes (by norm_num [w4Opts])
  refine ⟨by norm_num [w4Opts], hmem, ?_⟩
  rw [C4_composite_score_with_correlation [w4Pool] w4Opts 0 _
    (by norm_num [w4Opts]) hmem]
  have hc2 : calculateTokenCorrelation (scorePool [w4Pool] w4Opts w4Pool)
      (corrOptionsOf w4Opts) = 0.3 := by
    have he : calculateTokenCorrelation (scorePool [w4Pool] w4Opts w4Pool)
        (corrOptionsOf w4Opts) =
        calculateTokenCorrelation w4Pool (corrOptionsOf w4Opts) := rfl
    rw [he, w4Pool_correlation _ rfl]
  rw [hc2]
  norm_num [normalize, aprValues, tvlValues, volValues, tvlTrendValues,
    volumeTrendValues, corrValues, listMin, listMax, w4Opts, w4Pool, scorePool,
    corrOptionsOf, abs_of_nonneg]

/-- The options used by the C8 witness: default weights (which sum to 1,
with zero correlation weight), TVL threshold lowered. -/
def w8Opts : ScoreOptions := { minTVL := 0 }

/-- Helper: the witness pool passes the C8 witness filter. -/
theorem w8Pool_passes : passesFilter w8Opts 0 w4Pool = true := by
  unfold passesFilter
  simp only [Bool.and_eq_true]
  refine ⟨⟨⟨⟨?_, ?_⟩, ?_⟩, ?_⟩, ?_⟩
  · norm_num [w8Opts, w4Pool]
  · norm_num [w8Opts, w4Pool]
  · rfl
  · rfl
  · unfold meetsCorrelationCriteria
    rw [w4Pool_correlation _ rfl]
    simp only [Bool.and_eq_true, decide_eq_true_eq]
    norm_num [w8Opts]

/-- Witness for C8: the default weight configuration sums to exactly 1, and
the returned pool's score is certified inside `[0, 1]`. -/
theorem C8_score_bounds_witness :
    w8Opts.correlationWeight = 0 ∧
    (0 ≤ w8Opts.aprWeight ∧ 0 ≤ w8Opts.tvlWeight ∧
      0 ≤ w8Opts.volatilityWeight ∧ 0 ≤ w8Opts.tvlTrendWeight ∧
      0 ≤ w8Opts.volumeTrendWeight) ∧
    w8Opts.aprWeight + w8Opts.tvlWeight + w8Opts.volatilityWeight +
      w8Opts.tvlTrendWeight + w8Opts.volumeTrendWeight ≤ 1 ∧
    (∃ s, (scorePool [w4Pool] w8Opts w4Pool).score = some s ∧ 0 ≤ s ∧
      s ≤ w8Opts.aprWeight + w8Opts.tvlWeight + w8Opts.volatilityWeight +
        w8Opts.tvlTrendWeight + w8Opts.volumeTrendWeight) := by
  have hmem : scorePool [w4Pool] w8Opts w4Pool ∈
      getBestPoolsWithScore [w4Pool] w8Opts 0 :=
    mem_getBest_singleton w8Pool_passes (by norm_num [w8Opts])
  refine ⟨rfl, ⟨by norm_num [w8Opts], by norm_num [w8Opts], by norm_num [w8Opts],
    by norm_num [w8Opts], by norm_num [w8Opts]⟩, by norm_num [w8Opts], ?_⟩
  exact C8_score_bounds [w4Pool] w8Opts 0 _ rfl (by norm_num [w8Opts])
    (by norm_num [w8Opts]) (by norm_num [w8Opts]) (by norm_num [w8Opts])
    (by norm_num [w8Opts]) (by norm_num [w8Opts]) hmem

/-- C7: a held position whose pool is present in the scored universe with a
non-null APR below 5% always yields an exit recommendation with priority 9,
whatever the range, APR-change and correlation signals say. -/
theorem C7_low_apr_forces_exit (pools : List PoolWithAPR)
    (o : RebalanceOptions) (pos : Position) (pool : PoolWithAPR) (a : ℚ)
    (hpos : pos ∈ o.currentPositions)
    (hlook : lookupPool pools pos.poolId = some pool)
    (hapr : pool.apr = some a) (ha : a < 5) :
    ∃ act ∈ generateRebalanceRecommendations pools o,
      act.poolId = pos.poolId ∧
      act.actionType = RebalanceActionType.exitPosition ∧ act.priority = 9 := by
  have key : ∃ act, analyzePosition pools o pos = some act ∧
      act.poolId = pos.poolId ∧
      act.actionType = RebalanceActionType.exitPosition ∧ act.priority = 9 := by
    rcases hpr : pos.priceRange with _ | r <;>
    rcases hcor : pool.correlation with _ | c <;>
    by_cases hT : o.minActionThreshold < (0 : ℚ) <;>
    simp only [analyzePosition, hlook, hapr, hpr, hcor, abs_zero]
    all_goals
      try cases hb : needsRangeAdjustment r (calculateOptimalPriceRange pool 1 o.strategy) 1 o.minActionThreshold
    all_goals
      try by_cases hcc : c < correlationThreshold (o.strategy.getD StrategyKey.medium)
    all_goals
      try simp only [hcc]
    all_goals
      norm_num [ha, hT, sup_eq_max, max_def]
    all_goals
      first
        | exact ⟨_, ⟨by decide, rfl⟩, rfl, rfl, rfl⟩
        | exact ⟨_, rfl, rfl, rfl, rfl⟩
  rcases key with ⟨act, heq, h1, h2, h3⟩
  refine ⟨act, ?_, h1, h2, h3⟩
  unfold generateRebalanceRecommendations
  rw [mem_sortDescBy]
  exact List.mem_append_left _ (List.mem_filterMap.mpr ⟨pos, hpos, heq⟩)

/-- The pool used by the C7 witness: APR 3%, below the 5% floor. -/
def c7Pool : PoolWithAPR :=
  { id := "0xc7", token0 := { id := "0xa", symbol := "A", name := "A" },
    token1 := { id := "0xb", symbol := "B", name := "B" },
    feeTier := some 3000, totalValueLockedUSD := 500000,
    createdAtTimestamp := none, apr := some 3, aprStdDev := some 1,
    tvlTrend := some 0, volumeTrend := some 0, correlation := some 1,
    score := some 1 }

/-- The held position used by the C7 witness. -/
def c7Pos : Position := { poolId := "0xc7", size := 1000 }

/-- The rebalance options used by the C7 witness. -/
def c7Opts : RebalanceOptions := { currentPositions := [c7Pos] }

/-- Witness for C7 at a concrete held position in a 3%-APR pool. -/
theorem C7_low_apr_forces_exit_witness :
    c7Pos ∈ c7Opts.currentPositions ∧
    lookupPool [c7Pool] c7Pos.poolId = some c7Pool ∧
    c7Pool.apr = some 3 ∧ (3 : ℚ) < 5 ∧
    ∃ act ∈ generateRebalanceRecommendations [c7Pool] c7Opts,
      act.poolId = c7Pos.poolId ∧
      act.actionType = RebalanceActionType.exitPosition ∧ act.priority = 9 :=
  ⟨List.mem_singleton.mpr rfl, rfl, rfl, by norm_num,
    C7_low_apr_forces_exit [c7Pool] c7Opts c7Pos c7Pool 3
      (List.mem_singleton.mpr rfl) rfl rfl (by norm_num)⟩

/-- Helper: summing `x / c * 100` over a list. -/
theorem sum_map_div_mul (l : List ℚ) (c : ℚ) :
    (l.map (fun x => x / c * 100)).sum = l.sum / c * 100 := by
  induction l with
  | nil => simp
  | cons a as ih => simp [ih, add_div, add_mul]

/-- Helper: summing a conditional increment splits into the base sum plus
the increments over the filtered sublist. -/
theorem sum_map_ite_add {α : Type} (c : α → Prop) [DecidablePred c]
    (f g : α → ℚ) (l : List α) :
    (l.map (fun x => if c x then f x + g x else f x)).sum =
      (l.map f).sum + ((l.filter (fun x => decide (c x))).map g).sum := by
  induction l with
  | nil => simp
  | cons a as ih =>
    by_cases h : c a
    · simp [List.filter_cons, h, ih]
      ring
    · simp [List.filter_cons, h, ih]
      ring

/-- Helper: summing `x / c` over a list. -/
theorem sum_map_div (l : List ℚ) (c : ℚ) :
    (l.map (fun x => x / c)).sum = l.sum / c := by
  induction l with
  | nil => simp
  | cons a as ih => simp [ih, add_div]

/-- Helper: an element of `l.zip (l.map h)` pairs a value with its image. -/
theorem zip_map_self {α β : Type} (h : α → β) (l : List α) {pr : α × β}
    (hpr : pr ∈ l.zip (l.map h)) : pr.2 = h pr.1 := by
  induction l with
  | nil => cases hpr
  | cons a as ih =>
    rw [List.map_cons, List.zip_cons_cons] at hpr
    rcases List.mem_cons.mp hpr with h1 | h1
    · rw [h1]
    · exact ih h1

theorem length_withIdx {α : Type} (i : Nat) (l : List α) :
    (withIdx i l).length = l.length := by
  induction l generalizing i with
  | nil => rfl
  | cons a as ih => simp [withIdx, ih]

/-- Helper: the score-weighted branch selects exactly the target count of
pools. -/
theorem length_normalizedPositions (pools : List PoolWithAPR)
    (o : SizingOptions) :
    (normalizedPositions pools o).length = targetCountOf pools o := by
  unfold normalizedPositions initialPositions poolsToUseOf
  rw [List.length_map, List.length_map, length_withIdx, List.length_take,
    length_sortDescBy]
  exact min_eq_left (Nat.min_le_left _ _)

/-- C6 amended: score-weighted sizing caps any position whose normalized
share exceeds the cap at exactly the cap, and the percentages before the
minimum-size filter sum to 100 — provided the redistribution is feasible:
either no position exceeds the cap, or the positions still under the cap
carry positive total weighted score.  (When every selected position reaches
the cap, the source skips the redistribution and the total stays below
100 — see the counterexample.)  On the feasible path, each uncapped
position receives the remaining budget in proportion to its weighted
score. -/
theorem C6_cap_and_redistribution (pools : List PoolWithAPR)
    (o : SizingOptions) (h2 : 2 ≤ targetCountOf pools o)
    (hW : 0 < totalWeightedScoreOf pools o)
    (hfeas : (∀ q ∈ normalizedPositions pools o,
        q.percentage ≤ maxPercentOf o) ∨
      0 < uncappedWeightOf pools o) :
    ((redistributedPositions pools o).map (fun q => q.percentage)).sum = 100 ∧
    (∀ pr ∈ (normalizedPositions pools o).zip (redistributedPositions pools o),
      maxPercentOf o < pr.1.percentage →
      pr.2.percentage = maxPercentOf o) ∧
    (0 < remainingPercentOf pools o → 0 < remainingPositionsOf pools o →
      ∀ pr ∈ (cappedPositions pools o).zip (redistributedPositions pools o),
        pr.1.percentage < maxPercentOf o →
        pr.2.percentage = pr.1.percentage +
          remainingPercentOf pools o *
            (pr.1.weightedScore / uncappedWeightOf pools o)) := by
  have hTW : totalWeightedScoreOf pools o ≠ 0 := ne_of_gt hW
  have hsumN :
      ((normalizedPositions pools o).map (fun q => q.percentage)).sum = 100 := by
    unfold normalizedPositions
    rw [List.map_map]
    have he : (initialPositions pools o).map
        ((fun q => q.percentage) ∘ (fun q =>
          { q with percentage :=
              q.weightedScore / totalWeightedScoreOf pools o * 100 })) =
        ((initialPositions pools o).map (fun q => q.weightedScore)).map
          (fun x => x / totalWeightedScoreOf pools o * 100) := by
      rw [List.map_map]
      rfl
    rw [he, sum_map_div_mul]
    have hs : ((initialPositions pools o).map
        (fun q => q.weightedScore)).sum = totalWeightedScoreOf pools o := rfl
    rw [hs, div_self hTW]
    norm_num
  have hcap_eq : ((cappedPositions pools o).map (fun q => q.percentage)).sum =
      ((normalizedPositions pools o).map (fun q =>
        if maxPercentOf o < q.percentage then maxPercentOf o
        else q.percentage)).sum := by
    unfold cappedPositions
    rw [List.map_map]
    apply congrArg List.sum
    apply List.map_congr_left
    intro q hq
    by_cases h : maxPercentOf o < q.percentage <;> simp [h]
  have hsumCap : ((cappedPositions pools o).map (fun q => q.percentage)).sum =
      100 - remainingPercentOf pools o := by
    rw [hcap_eq]
    unfold remainingPercentOf
    ring
  have hRge : 0 ≤ remainingPercentOf pools o := by
    unfold remainingPercentOf
    have hle : ((normalizedPositions pools o).map (fun q =>
        if maxPercentOf o < q.percentage then maxPercentOf o
        else q.percentage)).sum ≤
        ((normalizedPositions pools o).map (fun q => q.percentage)).sum := by
      apply List.sum_le_sum
      intro q hq
      by_cases h : maxPercentOf o < q.percentage
      · rw [if_pos h]
        exact le_of_lt h
      · rw [if_neg h]
    rw [hsumN] at hle
    linarith
  by_cases hcond : 0 < remainingPercentOf pools o ∧
      0 < remainingPositionsOf pools o
  · have hred : redistributedPositions pools o =
        (cappedPositions pools o).map (fun q =>
          if q.percentage < maxPercentOf o then
            { q with percentage := q.percentage +
                remainingPercentOf pools o *
                  (q.weightedScore / uncappedWeightOf pools o) }
          else q) := by
      unfold redistributedPositions
      rw [if_pos hcond]
    have hWunc : 0 < uncappedWeightOf pools o := by
      rcases hfeas with hall | h
      · exfalso
        have heq : ((normalizedPositions pools o).map (fun q =>
            if maxPercentOf o < q.percentage then maxPercentOf o
            else q.percentage)).sum =
            ((normalizedPositions pools o).map (fun q => q.percentage)).sum := by
          apply congrArg List.sum
          apply List.map_congr_left
          intro q hq
          rw [if_neg (not_lt.mpr (hall q hq))]
        have hR0 : remainingPercentOf pools o = 0 := by
          unfold remainingPercentOf
          rw [heq, hsumN]
          ring
        rw [hR0] at hcond
        exact lt_irrefl 0 hcond.1
      · exact h
    refine ⟨?_, ?_, ?_⟩
    · rw [hred, List.map_map]
      have he : (cappedPositions pools o).map
          ((fun q => q.percentage) ∘ (fun q =>
            if q.percentage < maxPercentOf o then
              { q with percentage := q.percentage +
                  remainingPercentOf pools o *
                    (q.weightedScore / uncappedWeightOf pools o) }
            else q)) =
          (cappedPositions pools o).map (fun q =>
            if q.percentage < maxPercentOf o then
              q.percentage + remainingPercentOf pools o *
                (q.weightedScore / uncappedWeightOf pools o)
            else q.percentage) := by
        apply List.map_congr_left
        intro q hq
        by_cases h : q.percentage < maxPercentOf o <;> simp [h]
      have hsplit := sum_map_ite_add
        (fun q : WPos => q.percentage < maxPercentOf o)
        (fun q => q.percentage)
        (fun q => remainingPercentOf pools o *
          (q.weightedScore / uncappedWeightOf pools o))
        (cappedPositions pools o)
      simp only [] at hsplit
      rw [he, hsplit]
      rw [hsumCap, List.sum_map_mul_left]
      have hd : (((cappedPositions pools o).filter (fun q =>
          decide (q.percentage < maxPercentOf o))).map
          (fun q => q.weightedScore / uncappedWeightOf pools o)).sum =
          uncappedWeightOf pools o / uncappedWeightOf pools o := by
        have he2 : ((cappedPositions pools o).filter (fun q =>
            decide (q.percentage < maxPercentOf o))).map
            (fun q => q.weightedScore / uncappedWeightOf pools o) =
            (((cappedPositions pools o).filter (fun q =>
              decide (q.percentage < maxPercentOf o))).map
              (fun q => q.weightedScore)).map
              (fun x => x / uncappedWeightOf pools o) := by
          rw [List.map_map]
          rfl
        rw [he2, sum_map_div]
        rfl
      rw [hd, div_self (ne_of_gt hWunc)]
      ring
    · intro pr hpr hgt
      have hred2 : redistributedPositions pools o =
          (normalizedPositions pools o).map (fun a =>
            (fun q =>
              if q.percentage < maxPercentOf o then
                { q with percentage := q.percentage +
                    remainingPercentOf pools o *
                      (q.weightedScore / uncappedWeightOf pools o) }
              else q)
            ((fun q =>
              if maxPercentOf o < q.percentage then
                { q with percentage := maxPercentOf o }
              else q) a)) := by
        rw [hred]
        unfold cappedPositions
        rw [List.map_map]
        rfl
      rw [hred2] at hpr
      have hval := zip_map_self _ _ hpr
      rw [hval]
      simp only [if_pos hgt]
      rw [if_neg (lt_irrefl (maxPercentOf o))]
    · intro hR hC pr hpr hlt
      rw [hred] at hpr
      have hval := zip_map_self _ _ hpr
      rw [hval, if_pos hlt]
  · have hred : redistributedPositions pools o = cappedPositions pools o := by
      unfold redistributedPositions
      rw [if_neg hcond]
    have hR0 : remainingPercentOf pools o = 0 := by
      rcases not_and_or.mp hcond with hR' | hC'
      · linarith [hRge, not_lt.mp hR']
      · exfalso
        have hC0 : remainingPositionsOf pools o = 0 := Nat.eq_zero_of_not_pos hC'
        rcases hfeas with hall | hWu
        · have hfull : (normalizedPositions pools o).filter (fun q =>
              decide (q.percentage ≤ maxPercentOf o)) =
              normalizedPositions pools o := by
            apply List.filter_eq_self.mpr
            intro q hq
            simpa using hall q hq
          have : remainingPositionsOf pools o =
              (normalizedPositions pools o).length := by
            unfold remainingPositionsOf
            rw [hfull]
          rw [hC0, length_normalizedPositions] at this
          omega
        · have hne : (cappedPositions pools o).filter (fun q =>
              decide (q.percentage < maxPercentOf o)) ≠ [] := by
            intro hnil
            unfold uncappedWeightOf at hWu
            rw [hnil] at hWu
            simp at hWu
          rcases List.exists_mem_of_ne_nil _ hne with ⟨q, hq⟩
          rcases List.mem_filter.mp hq with ⟨hqmem, hqlt⟩
          have hqlt' : q.percentage < maxPercentOf o := by simpa using hqlt
          unfold cappedPositions at hqmem
          rcases List.mem_map.mp hqmem with ⟨a, hamem, haq⟩
          have halt : a.percentage ≤ maxPercentOf o := by
            by_cases h : maxPercentOf o < a.percentage
            · rw [← haq] at hqlt'
              rw [if_pos h] at hqlt'
              exact absurd hqlt' (lt_irrefl _)
            · exact not_lt.mp h
          have hcount : 0 < remainingPositionsOf pools o := by
            unfold remainingPositionsOf
            rw [List.length_pos]
            intro hnil
            have : a ∈ (normalizedPositions pools o).filter (fun q =>
                decide (q.percentage ≤ maxPercentOf o)) :=
              List.mem_filter.mpr ⟨hamem, by simpa using halt⟩
            rw [hnil] at this
            cases this
          omega
    refine ⟨?_, ?_, ?_⟩
    · rw [hred, hsumCap, hR0]
      ring
    · intro pr hpr hgt
      have hred2 : redistributedPositions pools o =
          (normalizedPositions pools o).map (fun q =>
            if maxPercentOf o < q.percentage then
              { q with percentage := maxPercentOf o }
            else q) := by
        rw [hred]
        rfl
      rw [hred2] at hpr
      have hval := zip_map_self _ _ hpr
      rw [hval, if_pos hgt]
    · intro hR hC
      exact absurd ⟨hR, hC⟩ hcond

/-- First pool of the C6 examples (score 1). -/
def c6PoolA : PoolWithAPR :=
  { id := "0xa6", token0 := { id := "0xa", symbol := "A", name := "A" },
    token1 := { id := "0xb", symbol := "B", name := "B" },
    feeTier := some 500, totalValueLockedUSD := 100000,
    createdAtTimestamp := none, apr := some 20, aprStdDev := some 1,
    tvlTrend := some 0, volumeTrend := some 0, score := some 1 }

/-- Second pool of the C6 examples (score 9/10). -/
def c6PoolB : PoolWithAPR :=
  { id := "0xb6", token0 := { id := "0xc", symbol := "C", name := "C" },
    token1 := { id := "0xd", symbol := "D", name := "D" },
    feeTier := some 500, totalValueLockedUSD := 100000,
    createdAtTimestamp := none, apr := some 15, aprStdDev := some 1,
    tvlTrend := some 0, volumeTrend := some 0, score := some (9/10) }

/-- Sizing options of the C6 examples, parameterized by the cap (default
medium profile: 3 target positions, concentration 0.8, minimum 250 USD). -/
def c6OptsWith (cap : ℚ) : SizingOptions :=
  { totalInvestmentUSD := 10000, maxPositionPercentage := some cap }

/-- Helper: the C6 example pools sorted by score. -/
theorem c6_sorted : sortDescBy (fun p => p.score.getD 0) [c6PoolA, c6PoolB] =
    [c6PoolA, c6PoolB] := by
  norm_num [sortDescBy, insertDescBy, c6PoolA, c6PoolB]

/-- Helper: both example pools are selected (target count 2). -/
theorem c6_ptu (cap : ℚ) :
    poolsToUseOf [c6PoolA, c6PoolB] (c6OptsWith cap) = [c6PoolA, c6PoolB] := by
  unfold poolsToUseOf
  rw [c6_sorted]
  rfl

/-- Helper: the normalized score-weighted shares of the C6 examples are
200/3 % and 100/3 % (concentration multipliers 1.8 and 1). -/
theorem c6_norm (cap : ℚ) :
    normalizedPositions [c6PoolA, c6PoolB] (c6OptsWith cap) =
      [{ poolId := "0xa6", score := 1, weightedScore := 9/5,
         percentage := 200/3, targetValueUSD := 0 },
       { poolId := "0xb6", score := 9/10, weightedScore := 9/10,
         percentage := 100/3, targetValueUSD := 0 }] := by
  have hinit : initialPositions [c6PoolA, c6PoolB] (c6OptsWith cap) =
      [{ poolId := "0xa6", score := 1, weightedScore := 9/5,
         percentage := 0, targetValueUSD := 0 },
       { poolId := "0xb6", score := 9/10, weightedScore := 9/10,
         percentage := 0, targetValueUSD := 0 }] := by
    unfold initialPositions
    rw [c6_ptu]
    norm_num [withIdx, concentrationMultiplier, targetCountOf, sizingProfile,
      DEFAULT_POSITION_SIZING, c6OptsWith, c6PoolA, c6PoolB]
  have htw : totalWeightedScoreOf [c6PoolA, c6PoolB] (c6OptsWith cap) =
      27/10 := by
    unfold totalWeightedScoreOf
    rw [hinit]
    norm_num
  unfold normalizedPositions
  rw [hinit, htw]
  norm_num

/-- C6 counterexample: with cap 30% both selected pools exceed the cap, the
redistribution pass finds no position under the cap, and the final
percentages sum to 60, not 100 — although no position was dropped by the
minimum-size filter (each is worth 3000 USD, far above the 250 USD
minimum). -/
theorem C6_all_capped_counterexample :
    calculatePositionSizes [c6PoolA, c6PoolB] (c6OptsWith 30) =
      [{ poolId := "0xa6", percentage := 30, targetValueUSD := 3000 },
       { poolId := "0xb6", percentage := 30, targetValueUSD := 3000 }] ∧
    ((calculatePositionSizes [c6PoolA, c6PoolB] (c6OptsWith 30)).map
      (fun q => q.percentage)).sum = 60 := by
  have hmax : maxPercentOf (c6OptsWith 30) = 30 := rfl
  have hcapped : cappedPositions [c6PoolA, c6PoolB] (c6OptsWith 30) =
      [{ poolId := "0xa6", score := 1, weightedScore := 9/5,
         percentage := 30, targetValueUSD := 0 },
       { poolId := "0xb6", score := 9/10, weightedScore := 9/10,
         percentage := 30, targetValueUSD := 0 }] := by
    unfold cappedPositions
    rw [c6_norm, hmax]
    norm_num
  have hcount : remainingPositionsOf [c6PoolA, c6PoolB] (c6OptsWith 30) = 0 := by
    unfold remainingPositionsOf
    rw [c6_norm, hmax]
    norm_num
  have hredist : redistributedPositions [c6PoolA, c6PoolB] (c6OptsWith 30) =
      cappedPositions [c6PoolA, c6PoolB] (c6OptsWith 30) := by
    unfold redistributedPositions
    rw [if_neg]
    intro h
    rw [hcount] at h
    exact lt_irrefl 0 h.2
  have htot : totalScoreOf [c6PoolA, c6PoolB] (c6OptsWith 30) = 19/10 := by
    unfold totalScoreOf
    rw [c6_ptu]
    norm_num [c6PoolA, c6PoolB]
  have hfinal : calculatePositionSizes [c6PoolA, c6PoolB] (c6OptsWith 30) =
      [{ poolId := "0xa6", percentage := 30, targetValueUSD := 3000 },
       { poolId := "0xb6", percentage := 30, targetValueUSD := 3000 }] := by
    unfold calculatePositionSizes
    rw [if_neg (show ¬([c6PoolA, c6PoolB].length = 0) from by norm_num),
      if_neg (show ¬((c6OptsWith 30).totalInvestmentUSD ≤ 0) from
        by norm_num [c6OptsWith]),
      if_neg (show ¬((c6OptsWith 30).equalWeight = true) from
        by norm_num [c6OptsWith]),
      if_neg (show ¬(totalScoreOf [c6PoolA, c6PoolB] (c6OptsWith 30) ≤ 0) from
        by rw [htot]; norm_num)]
    rw [hredist, hcapped]
    norm_num [c6OptsWith, minPositionValueOf, sizingProfile,
      DEFAULT_POSITION_SIZING]
  exact ⟨hfinal, by rw [hfinal]; norm_num⟩

/-- Witness for C6 with cap 70%: neither share exceeds the cap, and the
amended theorem certifies the pre-filter percentages sum to 100. -/
theorem C6_cap_and_redistribution_witness :
    2 ≤ targetCountOf [c6PoolA, c6PoolB] (c6OptsWith 70) ∧
    0 < totalWeightedScoreOf [c6PoolA, c6PoolB] (c6OptsWith 70) ∧
    (∀ q ∈ normalizedPositions [c6PoolA, c6PoolB] (c6OptsWith 70),
      q.percentage ≤ maxPercentOf (c6OptsWith 70)) ∧
    ((redistributedPositions [c6PoolA, c6PoolB] (c6OptsWith 70)).map
      (fun q => q.percentage)).sum = 100 := by
  have hall : ∀ q ∈ normalizedPositions [c6PoolA, c6PoolB] (c6OptsWith 70),
      q.percentage ≤ maxPercentOf (c6OptsWith 70) := by
    rw [c6_norm]
    intro q hq
    rcases List.mem_cons.mp hq with h | h
    · rw [h]
      norm_num [maxPercentOf, c6OptsWith]
    · rcases List.mem_cons.mp h with h1 | h1
      · rw [h1]
        norm_num [maxPercentOf, c6OptsWith]
      · cases h1
  have htw : 0 < totalWeightedScoreOf [c6PoolA, c6PoolB] (c6OptsWith 70) := by
    have : totalWeightedScoreOf [c6PoolA, c6PoolB] (c6OptsWith 70) =
        ((normalizedPositions [c6PoolA, c6PoolB]
          (c6OptsWith 70)).map (fun q => q.weightedScore)).sum := by
      unfold normalizedPositions totalWeightedScoreOf
      rw [List.map_map]
      rfl
    rw [this, c6_norm]
    norm_num
  refine ⟨by decide, htw, hall,
    (C6_cap_and_redistribution [c6PoolA, c6PoolB] (c6OptsWith 70) (by decide)
      htw (Or.inl hall)).1⟩

end Aerotropy
